import Mathlib

/-!
# Verification of the light-transport core of `raytracing1weekend`

Shallow embedding of `vec3/vec3.go`, `objects/materials.go` and
`camera/camera.go`.

The Go code computes on `float64`.  The embedding is generic in the type `K`
of scalars and in its operations `+ - * /`, unary minus, `<` and the numerals,
and takes the square root (`math.Sqrt`) as an explicit function argument, so
every definition is executable.  Two instances are used: the type `F64` of
IEEE 754 binary64 values with correctly rounded operations, which is the
arithmetic of the Go code, and the ordered field `ℝ` with `Real.sqrt`, for the
statements about exact real arithmetic.

The random sampling utilities (`utils.RandomDouble`, `utils.RandomUnitVector`,
`utils.RandomVec3InUnitSphere`) are impure; the value each call returns is an
explicit argument of the embedded function.  The out-parameters
`attenuation *vec3.Color` and `scattered *ray.Ray` of `Scatter` are passed in
(their contents before the call) and returned (their contents after it).
-/

namespace RayTracing

/-! ## `vec3/vec3.go` -/

/-- Go `type Vec3 struct { X, Y, Z float64 }`. -/
structure Vec3 (K : Type) where
  X : K
  Y : K
  Z : K
deriving DecidableEq, Repr

/-- Go `type Color = Vec3` (alias used by the materials). -/
abbrev Color (K : Type) := Vec3 K

/-- Go `type Point = Vec3` (alias used by rays and hit records). -/
abbrev Point (K : Type) := Vec3 K

namespace Vec3

variable {K : Type} [HAdd K K K] [HSub K K K] [HMul K K K] [HDiv K K K] [Neg K]
variable [HPow K ℕ K] [OfNat K 0] [OfNat K 1] [OfNat K 2]
variable [LT K] [∀ a b : K, Decidable (a < b)]

/-- Go `func (v Vec3) Add(other Vec3) Vec3`. -/
def Add (v other : Vec3 K) : Vec3 K :=
  { X := v.X + other.X, Y := v.Y + other.Y, Z := v.Z + other.Z }

/-- Go `func (v Vec3) Sub(other Vec3) Vec3`. -/
def Sub (v other : Vec3 K) : Vec3 K :=
  { X := v.X - other.X, Y := v.Y - other.Y, Z := v.Z - other.Z }

/-- Go `func (v Vec3) Negate() Vec3`. -/
def Negate (v : Vec3 K) : Vec3 K :=
  { X := -v.X, Y := -v.Y, Z := -v.Z }

/-- Go `func (v Vec3) Mul(other Vec3) Vec3`. -/
def Mul (v other : Vec3 K) : Vec3 K :=
  { X := v.X * other.X, Y := v.Y * other.Y, Z := v.Z * other.Z }

/-- Go `func (v Vec3) ScalarAdd(scalar float64) Vec3`. -/
def ScalarAdd (v : Vec3 K) (scalar : K) : Vec3 K :=
  { X := v.X + scalar, Y := v.Y + scalar, Z := v.Z + scalar }

/-- Go `func (v Vec3) ScalarMul(scalar float64) Vec3`. -/
def ScalarMul (v : Vec3 K) (scalar : K) : Vec3 K :=
  { X := v.X * scalar, Y := v.Y * scalar, Z := v.Z * scalar }

/-- Go `func (v Vec3) ScalarDiv(scalar float64) Vec3`. -/
def ScalarDiv (v : Vec3 K) (scalar : K) : Vec3 K :=
  { X := v.X / scalar, Y := v.Y / scalar, Z := v.Z / scalar }

/-- Go `func (v Vec3) Dot(other Vec3) float64`. -/
def Dot (v other : Vec3 K) : K :=
  v.X * other.X + v.Y * other.Y + v.Z * other.Z

/-- Go `func (v Vec3) Cross(other Vec3) Vec3`. -/
def Cross (v other : Vec3 K) : Vec3 K :=
  let x := v.Y * other.Z - v.Z * other.Y
  let y := v.Z * other.X - v.X * other.Z
  let z := v.X * other.Y - v.Y * other.X
  { X := x, Y := y, Z := z }

/-- Go `func (v Vec3) LengthSquared() float64`. -/
def LengthSquared (v : Vec3 K) : K :=
  v.Dot v

/-- Go `func (v Vec3) Length() float64`; `sqrt` stands for `math.Sqrt`. -/
def Length (sqrt : K → K) (v : Vec3 K) : K :=
  sqrt v.LengthSquared

/-- Go `func (v Vec3) Unit() Vec3`. -/
def Unit (sqrt : K → K) (v : Vec3 K) : Vec3 K :=
  v.ScalarDiv (v.Length sqrt)

end Vec3

section VecOps

variable {K : Type} [HAdd K K K] [HSub K K K] [HMul K K K] [HDiv K K K] [Neg K]
variable [HPow K ℕ K] [OfNat K 0] [OfNat K 1] [OfNat K 2]
variable [LT K] [∀ a b : K, Decidable (a < b)]

/-- Go `func Reflect(v Vec3, normal Vec3) Vec3`. -/
def Reflect (v normal : Vec3 K) : Vec3 K :=
  v.Sub (normal.ScalarMul (v.Dot normal * 2))

/-- The local `rOutParallel` of Go `Refract` (vec3.go line 101), with the
local `cosTheta := uv.Negate().Dot(normal)` of line 99 inlined. -/
def rOutParallel (uv normal : Vec3 K) (etaiOverEtat : K) : Vec3 K :=
  (((normal.ScalarMul (uv.Negate.Dot normal)).Add uv).ScalarMul etaiOverEtat)

/-- The argument `1 - rOutParallel.LengthSquared()` that Go `Refract` passes to
`math.Sqrt` (vec3.go line 102). -/
def refractRadicand (uv normal : Vec3 K) (etaiOverEtat : K) : K :=
  1 - (rOutParallel uv normal etaiOverEtat).LengthSquared

/-- Go `func Refract(uv Vec3, normal Vec3, etaiOverEtat float64) Vec3`. -/
def Refract (sqrt : K → K) (uv normal : Vec3 K) (etaiOverEtat : K) : Vec3 K :=
  let rOutPerp := normal.ScalarMul (-sqrt (refractRadicand uv normal etaiOverEtat))
  (rOutParallel uv normal etaiOverEtat).Add rOutPerp

end VecOps

/-! ## `objects/materials.go` -/

/-- Modelled from the spec: the type `ray.Ray` (package `ray` is not among the
sources), "`{Origin: Point, Direction: Vector}`". -/
structure Ray (K : Type) where
  Origin : Point K
  Direction : Vec3 K
deriving DecidableEq, Repr

/-- Modelled from the spec: the type `HitRecord` (declared outside the
sources), "`{P: Point, Normal: Vector, FrontFace: bool, Material}`".  The
material reference is not read by any `Scatter` and is left out. -/
structure HitRecord (K : Type) where
  P : Point K
  Normal : Vec3 K
  FrontFace : Bool
deriving DecidableEq, Repr

/-- The observable effect of one `Scatter` call: the returned boolean and the
contents of the two out-parameters after the call. -/
structure ScatterResult (K : Type) where
  ok : Bool
  attenuation : Color K
  scattered : Ray K
deriving DecidableEq, Repr

/-- Go `type Lambertian struct { Albedo vec3.Color }`. -/
structure Lambertian (K : Type) where
  Albedo : Color K
deriving DecidableEq, Repr

/-- Go `type Metal struct { Albedo vec3.Color; Fuzz float64 }`. -/
structure Metal (K : Type) where
  Albedo : Color K
  Fuzz : K
deriving DecidableEq, Repr

/-- Go `type DiElectric struct { RefIndex float64 }`. -/
structure DiElectric (K : Type) where
  RefIndex : K
deriving DecidableEq, Repr

section Materials

variable {K : Type} [HAdd K K K] [HSub K K K] [HMul K K K] [HDiv K K K] [Neg K]
variable [HPow K ℕ K] [OfNat K 0] [OfNat K 1] [OfNat K 2]
variable [LT K] [∀ a b : K, Decidable (a < b)]

/-- Modelled from the spec: `utils.Fmin` (package `utils` is not among the
sources), the minimum of two scalars ("`cosθ = min(1, (-unitIncoming)·normal)`"). -/
def Fmin (a b : K) : K :=
  if a < b then a else b

/-- Go `func (l Lambertian) Scatter(rIn, rec, attenuation, scattered) bool`.
`randomUnitVector` is the value returned by `utils.RandomUnitVector()`. -/
def Lambertian.Scatter (l : Lambertian K) (rIn : Ray K) (rec : HitRecord K)
    (attenuation : Color K) (scattered : Ray K) (randomUnitVector : Vec3 K) :
    ScatterResult K :=
  let scatterDir := rec.Normal.Add randomUnitVector
  let scattered := { scattered with Origin := rec.P }
  let scattered := { scattered with Direction := scatterDir }
  let attenuation := l.Albedo
  { ok := true, attenuation := attenuation, scattered := scattered }

/-- Go `func (m Metal) Scatter(rIn, rec, attenuation, scattered) bool`.
`randomInSphere` is the value returned by `utils.RandomVec3InUnitSphere()`. -/
def Metal.Scatter (sqrt : K → K) (m : Metal K) (rIn : Ray K) (rec : HitRecord K)
    (attenuation : Color K) (scattered : Ray K) (randomInSphere : Vec3 K) :
    ScatterResult K :=
  let reflected := Reflect (rIn.Direction.Unit sqrt) rec.Normal
  let scattered := { scattered with Origin := rec.P }
  let scattered :=
    { scattered with Direction := reflected.Add (randomInSphere.ScalarMul m.Fuzz) }
  let attenuation := m.Albedo
  { ok := decide (scattered.Direction.Dot rec.Normal > 0),
    attenuation := attenuation, scattered := scattered }

/-- Go `func (d DiElectric) schlick(cosine, refindex float64) float64`;
`math.Pow(x, 5)` is the fifth power. -/
def DiElectric.schlick (_d : DiElectric K) (cosine refindex : K) : K :=
  let r0 := (1 - refindex) / (1 + refindex)
  let r0 := r0 * r0
  r0 * (1 - r0) * (1 - cosine) ^ 5

/-- The local `etaiOverEtat` of `DiElectric.Scatter` (materials.go lines
100-106). -/
def DiElectric.etaiOverEtat (d : DiElectric K) (rec : HitRecord K) : K :=
  if rec.FrontFace then 1 / d.RefIndex else d.RefIndex

/-- The local `cosTheta` of `DiElectric.Scatter` (materials.go line 109). -/
def DiElectric.cosTheta (sqrt : K → K) (rIn : Ray K) (rec : HitRecord K) : K :=
  Fmin ((rIn.Direction.Unit sqrt).Negate.Dot rec.Normal) 1

/-- The local `sinTheta` of `DiElectric.Scatter` (materials.go line 110). -/
def DiElectric.sinTheta (sqrt : K → K) (rIn : Ray K) (rec : HitRecord K) : K :=
  sqrt (1 - DiElectric.cosTheta sqrt rIn rec * DiElectric.cosTheta sqrt rIn rec)

/-- The condition of the `if` of `DiElectric.Scatter` (materials.go line 112);
`randomDouble` is the value returned by `utils.RandomDouble()`. -/
def DiElectric.reflects (sqrt : K → K) (d : DiElectric K) (rIn : Ray K)
    (rec : HitRecord K) (randomDouble : K) : Bool :=
  decide (d.etaiOverEtat rec * DiElectric.sinTheta sqrt rIn rec > 1) ||
    decide (randomDouble <
      d.schlick (DiElectric.cosTheta sqrt rIn rec) (d.etaiOverEtat rec))

/-- Go `func (d DiElectric) Scatter(rIn, rec, attenuation, scattered) bool`. -/
def DiElectric.Scatter (sqrt : K → K) (d : DiElectric K) (rIn : Ray K)
    (rec : HitRecord K) (attenuation : Color K) (scattered : Ray K)
    (randomDouble : K) : ScatterResult K :=
  let attenuation : Color K := { X := 1, Y := 1, Z := 1 }
  let unitDirection := rIn.Direction.Unit sqrt
  if d.reflects sqrt rIn rec randomDouble then
    let reflected := Reflect unitDirection rec.Normal
    let scattered := { scattered with Origin := rec.P }
    let scattered := { scattered with Direction := reflected }
    { ok := true, attenuation := attenuation, scattered := scattered }
  else
    let refracted := Refract sqrt unitDirection rec.Normal (d.etaiOverEtat rec)
    let scattered := { scattered with Origin := rec.P }
    let scattered := { scattered with Direction := refracted }
    { ok := true, attenuation := attenuation, scattered := scattered }

end Materials

/-! ## `objects/materials.go`: construction from a key-value description -/

/-- A value held by a Go `interface{}` of a decoded description: `nil`, a
`bool`, a `float64`, a `string`, a `[]interface{}` or a
`map[string]interface{}` (a list of key-value pairs). -/
inductive JValue (K : Type) where
  | null
  | bool (b : Bool)
  | num (x : K)
  | str (s : String)
  | arr (xs : List (JValue K))
  | obj (kvs : List (String × JValue K))

/-- Go `map[string]interface{}`. -/
abbrev JMap (K : Type) := List (String × JValue K)

/-- Go map indexing `m[key]`: the stored value, and `nil` for a key that is
not in the map. -/
def JMap.get {K : Type} (m : JMap K) (key : String) : JValue K :=
  match m.lookup key with
  | some v => v
  | none => JValue.null

/-- Go type assertion `v.(string)`; `none` when the assertion does not hold. -/
def JValue.assertString {K : Type} : JValue K → Option String
  | JValue.str s => some s
  | _ => none

/-- Go type assertion `v.(float64)`; `none` when the assertion does not hold. -/
def JValue.assertFloat64 {K : Type} : JValue K → Option K
  | JValue.num x => some x
  | _ => none

/-- Go type assertion `v.(map[string]interface{})`; `none` when the assertion
does not hold. -/
def JValue.assertMap {K : Type} : JValue K → Option (JMap K)
  | JValue.obj kvs => some kvs
  | _ => none

/-- The implementations of the Go interface `Material` in materials.go. -/
inductive Material (K : Type) where
  | lambertian (l : Lambertian K)
  | metal (m : Metal K)
  | dielectric (d : DiElectric K)
deriving DecidableEq, Repr

/-- How a call of `newMaterial` ends: it returns `(material, nil)`, it returns
`(nil, err)`, or a type assertion without the `ok` result fails and the call
panics. -/
inductive Outcome (α : Type) where
  | ok (a : α)
  | error (msg : String)
  | panic
deriving DecidableEq, Repr

section NewMaterial

variable {K : Type} [LinearOrderedField K]

/-- The struct literal `vec3.Color{X: albedo["x"].(float64), Y: ..., Z: ...}`
of `newMaterial` (materials.go lines 29-33 and 39-43); `none` when one of the
three unchecked assertions panics. -/
def albedoColor (albedo : JMap K) : Option (Color K) :=
  match (albedo.get "x").assertFloat64, (albedo.get "y").assertFloat64,
      (albedo.get "z").assertFloat64 with
  | some x, some y, some z => some { X := x, Y := y, Z := z }
  | _, _, _ => none

/-- Go `func newMaterial(matInferface map[string]interface{}) (Material, error)`;
`toLower` stands for `strings.ToLower`. -/
def newMaterial (toLower : String → String) (matInferface : JMap K) :
    Outcome (Material K) :=
  let matType :=
    match (matInferface.get "type").assertString with
    | some t => toLower t
    | none => ""
  if matType = "lambertian" then
    match (matInferface.get "albedo").assertMap with
    | some albedo =>
      match albedoColor albedo with
      | some c => Outcome.ok (Material.lambertian { Albedo := c })
      | none => Outcome.panic
    | none => Outcome.ok (Material.lambertian { Albedo := ⟨0, 0, 0⟩ })
  else if matType = "metal" then
    let fuzz :=
      match (matInferface.get "fuzz").assertFloat64 with
      | some fuzz => fuzz
      | none => 0
    match (matInferface.get "albedo").assertMap with
    | some albedo =>
      match albedoColor albedo with
      | some c => Outcome.ok (Material.metal { Albedo := c, Fuzz := fuzz })
      | none => Outcome.panic
    | none => Outcome.ok (Material.metal { Albedo := ⟨0, 0, 0⟩, Fuzz := fuzz })
  else if matType = "dielectric" then
    match (matInferface.get "refindex").assertFloat64 with
    | some refindex => Outcome.ok (Material.dielectric { RefIndex := refindex })
    | none => Outcome.ok (Material.dielectric { RefIndex := 0 })
  else
    Outcome.error "Unable to select material"

end NewMaterial

/-- An executable lowering function used to run `newMaterial` on concrete
descriptions: it lower-cases the ASCII letters, as `strings.ToLower` does on
ASCII text.  The general statements quantify over the lowering function. -/
def toLowerASCII (s : String) : String :=
  String.mk (s.data.map Char.toLower)

/-! ## `camera/camera.go` -/

/-- Go `type Camera struct`. -/
structure Camera (K : Type) where
  LookFrom : Point K
  LookAt : Point K
  ViewUp : Vec3 K
  VFOV : K
  Theta : K
  H : K
  AspectRatio : K
  ViewPortHeight : K
  ViewPortWidth : K
  FocalLength : K
  U : Vec3 K
  V : Vec3 K
  W : Vec3 K
  LensRadius : K
  Origin : Point K
  Horizontal : Vec3 K
  Vertical : Vec3 K
  LowerLeft : Point K
deriving DecidableEq, Repr

section CameraOps

variable {K : Type} [HAdd K K K] [HSub K K K] [HMul K K K] [HDiv K K K] [Neg K]
variable [HPow K ℕ K] [OfNat K 0] [OfNat K 1] [OfNat K 2]
variable [LT K] [∀ a b : K, Decidable (a < b)]

/-- Go `const focalLength = 1.0`. -/
def focalLength : K := 1

/-- Go `func InitCamera(lookfrom, lookat, vup, vfov, aspect, aperture, focusDist) *Camera`.
`sqrt` stands for `math.Sqrt`, `tan` for `math.Tan` and `degrees2radians` for
`utils.Degrees2radians` (package `utils` is not among the sources). -/
def InitCamera (sqrt tan degrees2radians : K → K) (lookfrom lookat : Point K)
    (vup : Vec3 K) (vfov aspect aperture focusDist : K) : Camera K :=
  let theta := degrees2radians vfov
  let h := tan (theta / 2)
  let viewPortHeight := 2 * h
  let viewPortWidth := aspect * viewPortHeight
  let w := (lookfrom.Sub lookat).Unit sqrt
  let u := (vup.Cross w).Unit sqrt
  let v := w.Cross u
  let origin := lookfrom
  let horizontal := (u.ScalarMul viewPortWidth).ScalarMul focusDist
  let vertical := (v.ScalarMul viewPortHeight).ScalarMul focusDist
  let lowerLeft :=
    ((origin.Sub (horizontal.ScalarDiv 2)).Sub (vertical.ScalarDiv 2)).Sub
      (w.ScalarMul focusDist)
  { LookFrom := lookfrom, LookAt := lookat, ViewUp := vup,
    VFOV := vfov, Theta := theta, H := h, AspectRatio := aspect,
    ViewPortHeight := viewPortHeight, ViewPortWidth := viewPortWidth,
    FocalLength := focalLength,
    U := u, V := v, W := w, LensRadius := aperture / 2,
    Origin := origin, Horizontal := horizontal, Vertical := vertical,
    LowerLeft := lowerLeft }

/-- Go `func (c Camera) GetRay(s, t float64) ray.Ray`; `randomInUnitDisk` is the
value returned by `utils.RandomInUnitDisk()`. -/
def Camera.GetRay (c : Camera K) (s t : K) (randomInUnitDisk : Vec3 K) : Ray K :=
  let rd := randomInUnitDisk.ScalarMul c.LensRadius
  let offset := (c.U.ScalarMul rd.X).Add (c.V.ScalarMul rd.Y)
  { Origin := c.Origin.Add offset,
    Direction :=
      ((((c.LowerLeft.Add (c.Horizontal.ScalarMul s)).Add (c.Vertical.ScalarMul t)).Sub
        c.Origin).Sub offset) }

end CameraOps

/-! ## The `float64` arithmetic of the Go code

`float64` is IEEE 754 binary64.  A value is a signed zero, a signed finite
number `m * 2^e`, a signed infinity or a NaN.  Each of `+ - * /` and
`math.Sqrt` returns the representable value nearest to the exact result, ties
going to the even mantissa, every operation being rounded on its own (Go does
not fuse a multiplication with an addition on amd64).  The definitions above
run on this type as they stand. -/

/-- Number of binary digits of `n` (0 for 0); the first argument bounds the
recursion. -/
def bitLength : Nat → Nat → Nat
  | 0, _ => 0
  | fuel + 1, n => if n = 0 then 0 else bitLength fuel (n / 2) + 1

/-- Newton iteration for the integer square root of `n`, started at a value
`x` that is not below it. -/
def isqrtIter : Nat → Nat → Nat → Nat
  | 0, _, x => x
  | fuel + 1, n, x =>
    let y := (x + n / x) / 2
    if y < x then isqrtIter fuel n y else x

/-- The largest `r` with `r * r ≤ n`. -/
def isqrt (n : Nat) : Nat :=
  if n = 0 then 0 else isqrtIter 4096 n (2 ^ ((bitLength 4096 n + 1) / 2))

/-- Move the factors 2 of a mantissa into the exponent. -/
def stripTwos : Nat → Nat → Int → Nat × Int
  | 0, m, e => (m, e)
  | fuel + 1, m, e => if m % 2 = 0 then stripTwos fuel (m / 2) (e + 1) else (m, e)

/-- A `float64`: `fin neg m e` is `(-1)^neg * m * 2^e`, with `m` odd, or
`m = 0` and `e = 0` for the two zeros; `inf neg` is an infinity and `nan` a NaN. -/
inductive F64 where
  | fin (neg : Bool) (m : Nat) (e : Int)
  | inf (neg : Bool)
  | nan
deriving DecidableEq, Repr

namespace F64

/-- The finite value `(-1)^neg * m * 2^e` in its unique representation. -/
def mk (neg : Bool) (m : Nat) (e : Int) : F64 :=
  if m = 0 then fin neg 0 0
  else
    let r := stripTwos 4096 m e
    fin neg r.1 r.2

/-- The `float64` nearest to `(-1)^neg * p / q` for `q > 0`: round to nearest,
ties to even, with 53 bits of precision above `2^-1022`, multiples of `2^-1074`
below, and an infinity from `2^1024` on. -/
def roundRatio (neg : Bool) (p q : Nat) : F64 :=
  if p = 0 then fin neg 0 0
  else
    let e0 : Int := (bitLength 4096 p : Int) - (bitLength 4096 q : Int)
    let ge : Bool :=
      if 0 ≤ e0 then decide (q * 2 ^ e0.toNat ≤ p) else decide (q ≤ p * 2 ^ (-e0).toNat)
    -- `2^E ≤ p / q < 2^(E+1)`
    let E : Int := if ge then e0 else e0 - 1
    let Ec : Int := if E < -1022 then -1022 else E
    -- the result is `n * 2^(-s)` for the integer `n` nearest to `p / q * 2^s`
    let s : Int := 52 - Ec
    let num : Nat := if 0 ≤ s then p * 2 ^ s.toNat else p
    let den : Nat := if 0 ≤ s then q else q * 2 ^ (-s).toNat
    let n0 := num / den
    let r := num % den
    let n :=
      if 2 * r < den then n0
      else if den < 2 * r then n0 + 1
      else if n0 % 2 = 0 then n0 else n0 + 1
    if 1023 < E ∨ (Ec = 1023 ∧ 2 ^ 53 ≤ n) then inf neg else mk neg n (-s)

/-- The `float64` of a decimal constant of the source, `p / q`. -/
def ofRatio (p q : Nat) : F64 :=
  roundRatio false p q

/-- Unary minus. -/
def neg : F64 → F64
  | fin s m e => fin (!s) m e
  | inf s => inf (!s)
  | nan => nan

/-- Addition `x + y`. -/
def add : F64 → F64 → F64
  | nan, _ => nan
  | _, nan => nan
  | inf s, inf t => if s = t then inf s else nan
  | inf s, fin _ _ _ => inf s
  | fin _ _ _, inf t => inf t
  | fin s m e, fin t k f =>
    let g : Int := if e ≤ f then e else f
    let a : Int := (if s then -1 else 1) * (m * 2 ^ (e - g).toNat : Nat)
    let b : Int := (if t then -1 else 1) * (k * 2 ^ (f - g).toNat : Nat)
    let c : Int := a + b
    if c = 0 then fin (s && t) 0 0
    else if 0 ≤ g then roundRatio (decide (c < 0)) (c.natAbs * 2 ^ g.toNat) 1
    else roundRatio (decide (c < 0)) c.natAbs (2 ^ (-g).toNat)

/-- Subtraction `x - y`. -/
def sub (x y : F64) : F64 :=
  add x (neg y)

/-- Multiplication `x * y`. -/
def mul : F64 → F64 → F64
  | nan, _ => nan
  | _, nan => nan
  | inf s, inf t => inf (xor s t)
  | inf s, fin t k _ => if k = 0 then nan else inf (xor s t)
  | fin s m _, inf t => if m = 0 then nan else inf (xor s t)
  | fin s m e, fin t k f =>
    let g : Int := e + f
    if 0 ≤ g then roundRatio (xor s t) (m * k * 2 ^ g.toNat) 1
    else roundRatio (xor s t) (m * k) (2 ^ (-g).toNat)

/-- Division `x / y`. -/
def div : F64 → F64 → F64
  | nan, _ => nan
  | _, nan => nan
  | inf _, inf _ => nan
  | inf s, fin t _ _ => inf (xor s t)
  | fin s _ _, inf t => fin (xor s t) 0 0
  | fin s m e, fin t k f =>
    if k = 0 then (if m = 0 then nan else inf (xor s t))
    else
      let g : Int := e - f
      if 0 ≤ g then roundRatio (xor s t) (m * 2 ^ g.toNat) k
      else roundRatio (xor s t) m (k * 2 ^ (-g).toNat)

/-- Go `math.Sqrt`.  The mantissa is scaled to at least `2^110` with an even
exponent; its integer square root `r`, and whether it is exact, decide the
rounding. -/
def sqrt : F64 → F64
  | nan => nan
  | inf s => if s then nan else inf false
  | fin s m e =>
    if m = 0 then fin s 0 0
    else if s then nan
    else
      let k : Nat := 110 + (if e % 2 = 0 then 0 else 1)
      let M : Nat := m * 2 ^ k
      let h : Int := (e - k) / 2
      let r := isqrt M
      let sticky : Nat := if r * r = M then 0 else 1
      if 0 ≤ h then roundRatio false ((2 * r + sticky) * 2 ^ h.toNat) 2
      else roundRatio false (2 * r + sticky) (2 * 2 ^ (-h).toNat)

/-- Go `x < y`: false when an operand is a NaN. -/
def lt : F64 → F64 → Bool
  | nan, _ => false
  | _, nan => false
  | inf s, inf t => s && !t
  | inf s, fin _ _ _ => s
  | fin _ _ _, inf t => !t
  | fin s m e, fin t k f =>
    let g : Int := if e ≤ f then e else f
    let a : Int := (if s then -1 else 1) * (m * 2 ^ (e - g).toNat : Nat)
    let b : Int := (if t then -1 else 1) * (k * 2 ^ (f - g).toNat : Nat)
    decide (a < b)

/-- Go `x == y`: false when an operand is a NaN, true of the two zeros. -/
def eq : F64 → F64 → Bool
  | nan, _ => false
  | _, nan => false
  | inf s, inf t => s == t
  | inf _, fin _ _ _ => false
  | fin _ _ _, inf _ => false
  | fin s m e, fin t k f => (m == 0 && k == 0) || (s == t && m == k && e == f)

/-- Go `x <= y`. -/
def le (x y : F64) : Bool :=
  lt x y || eq x y

instance : Add F64 := ⟨add⟩

instance : Sub F64 := ⟨sub⟩

instance : Mul F64 := ⟨mul⟩

instance : Div F64 := ⟨div⟩

instance : Neg F64 := ⟨neg⟩

instance (n : Nat) : OfNat F64 n := ⟨roundRatio false n 1⟩

instance : LT F64 := ⟨fun x y => lt x y = true⟩

instance : LE F64 := ⟨fun x y => le x y = true⟩

instance (x y : F64) : Decidable (x < y) :=
  inferInstanceAs (Decidable (lt x y = true))

instance (x y : F64) : Decidable (x ≤ y) :=
  inferInstanceAs (Decidable (le x y = true))

end F64

/-- The camera `InitCamera((13,2,3), (0,0,0), (0,1,0), 0, 1.5, aperture,
focusDist)` in `float64`.  With `vfov = 0` the two functions that are not
modelled are called at 0 only, `Degrees2radians(0)` and `math.Tan(0)`, and both
return 0. -/
def cameraFloat64 (aperture focusDist : F64) : Camera F64 :=
  InitCamera F64.sqrt (fun x => x) (fun x => x) ⟨13, 2, 3⟩ ⟨0, 0, 0⟩ ⟨0, 1, 0⟩ 0
    (F64.ofRatio 3 2) aperture focusDist

/-! ## Auxiliary facts about the vector algebra over `ℝ` -/

section Aux

theorem Vec3.eq_of_components {K : Type} {a b : Vec3 K}
    (hx : a.X = b.X) (hy : a.Y = b.Y) (hz : a.Z = b.Z) : a = b := by
  cases a; cases b; simp_all

theorem Vec3.lengthSquared_nonneg (v : Vec3 ℝ) : 0 ≤ v.LengthSquared := by
  unfold Vec3.LengthSquared Vec3.Dot
  nlinarith [mul_self_nonneg v.X, mul_self_nonneg v.Y, mul_self_nonneg v.Z]

theorem Vec3.lengthSquared_pos {v : Vec3 ℝ} (hv : v ≠ ⟨0, 0, 0⟩) :
    0 < v.LengthSquared := by
  rcases lt_or_eq_of_le (Vec3.lengthSquared_nonneg v) with h | h
  · exact h
  · exfalso
    apply hv
    unfold Vec3.LengthSquared Vec3.Dot at h
    have hx : v.X = 0 := by
      nlinarith [mul_self_nonneg v.X, mul_self_nonneg v.Y, mul_self_nonneg v.Z]
    have hy : v.Y = 0 := by
      nlinarith [mul_self_nonneg v.X, mul_self_nonneg v.Y, mul_self_nonneg v.Z]
    have hz : v.Z = 0 := by
      nlinarith [mul_self_nonneg v.X, mul_self_nonneg v.Y, mul_self_nonneg v.Z]
    exact Vec3.eq_of_components hx hy hz

/-- Over the reals the normalisation of a nonzero vector has squared length 1. -/
theorem Vec3.unit_lengthSquared {v : Vec3 ℝ} (hv : v ≠ ⟨0, 0, 0⟩) :
    (v.Unit Real.sqrt).LengthSquared = 1 := by
  have hpos := Vec3.lengthSquared_pos hv
  have hs : Real.sqrt v.LengthSquared * Real.sqrt v.LengthSquared = v.LengthSquared :=
    Real.mul_self_sqrt hpos.le
  have hne : Real.sqrt v.LengthSquared ≠ 0 := ne_of_gt (Real.sqrt_pos.mpr hpos)
  unfold Vec3.Unit Vec3.Length Vec3.ScalarDiv
  show (Vec3.Dot _ _) = 1
  unfold Vec3.Dot
  simp only
  have : v.X / Real.sqrt v.LengthSquared * (v.X / Real.sqrt v.LengthSquared)
      + v.Y / Real.sqrt v.LengthSquared * (v.Y / Real.sqrt v.LengthSquared)
      + v.Z / Real.sqrt v.LengthSquared * (v.Z / Real.sqrt v.LengthSquared)
      = (v.X * v.X + v.Y * v.Y + v.Z * v.Z)
        / (Real.sqrt v.LengthSquared * Real.sqrt v.LengthSquared) := by
    field_simp
  rw [this, hs]
  unfold Vec3.LengthSquared Vec3.Dot at hpos ⊢
  exact div_self hpos.ne.symm

/-- Squared length of the parallel part of the refracted ray, for unit `uv`
and unit `normal`. -/
theorem rOutParallel_lengthSquared {K : Type} [LinearOrderedField K]
    (uv normal : Vec3 K) (k : K)
    (hu : uv.LengthSquared = 1) (hn : normal.LengthSquared = 1) :
    (rOutParallel uv normal k).LengthSquared
      = k * k * (1 - uv.Dot normal * uv.Dot normal) := by
  unfold Vec3.LengthSquared Vec3.Dot at hu hn
  unfold rOutParallel Vec3.LengthSquared Vec3.Dot Vec3.ScalarMul Vec3.Add Vec3.Negate
  simp only
  linear_combination
    (k * k * (uv.X * normal.X + uv.Y * normal.Y + uv.Z * normal.Z) ^ 2) * hn
      + (k * k) * hu

theorem Vec3.lengthSquared_eq_one_of_length {v : Vec3 ℝ}
    (h : v.Length Real.sqrt = 1) : v.LengthSquared = 1 := by
  unfold Vec3.Length at h
  have h0 : (0 : ℝ) ≤ 1 := zero_le_one
  have := (Real.sqrt_eq_iff_mul_self_eq (Vec3.lengthSquared_nonneg v) h0).mp h
  linarith

/-- For unit vectors the cosine `(-u)·n` is at most 1, so `Fmin _ 1` leaves it
unchanged. -/
theorem fmin_negate_dot_eq (u n : Vec3 ℝ)
    (hu : u.LengthSquared = 1) (hn : n.LengthSquared = 1) :
    Fmin (u.Negate.Dot n) 1 = u.Negate.Dot n := by
  have hsq : u.Negate.Dot n * u.Negate.Dot n ≤ 1 := by
    have h1 := rOutParallel_lengthSquared u n 1 hu hn
    have h2 := Vec3.lengthSquared_nonneg (rOutParallel u n 1)
    have h3 : u.Negate.Dot n = -(u.Dot n) := by
      unfold Vec3.Dot Vec3.Negate; ring
    rw [h3]
    nlinarith
  have hle : u.Negate.Dot n ≤ 1 := by nlinarith
  unfold Fmin
  split_ifs with h
  · rfl
  · exact le_antisymm (not_lt.mp h) hle

/-- The radicand of `Refract` for unit `uv` and unit `normal`. -/
theorem refractRadicand_unit {K : Type} [LinearOrderedField K]
    (uv normal : Vec3 K) (k : K)
    (hu : uv.LengthSquared = 1) (hn : normal.LengthSquared = 1) :
    refractRadicand uv normal k = 1 - k * k * (1 - uv.Dot normal * uv.Dot normal) := by
  unfold refractRadicand
  rw [rOutParallel_lengthSquared uv normal k hu hn]

/-- Refracting a second time through a parallel interface with the inverse
ratio restores the parallel part, whatever value the first square root took. -/
theorem rOutParallel_refract {K : Type} [LinearOrderedField K] (sqrt : K → K)
    (uv n : Vec3 K) (R : K) (hn : n.LengthSquared = 1) (hR : R ≠ 0) :
    rOutParallel (Refract sqrt uv n (1 / R)) n R = rOutParallel uv n 1 := by
  unfold Vec3.LengthSquared Vec3.Dot at hn
  set s := sqrt (refractRadicand uv n (1 / R)) with hs
  apply Vec3.eq_of_components
  · simp only [rOutParallel, Refract, Vec3.Add, Vec3.ScalarMul, Vec3.Dot, Vec3.Negate]
    field_simp
    linear_combination
      (n.X * (uv.X * n.X + uv.Y * n.Y + uv.Z * n.Z + s * R)) * hn
  · simp only [rOutParallel, Refract, Vec3.Add, Vec3.ScalarMul, Vec3.Dot, Vec3.Negate]
    field_simp
    linear_combination
      (n.Y * (uv.X * n.X + uv.Y * n.Y + uv.Z * n.Z + s * R)) * hn
  · simp only [rOutParallel, Refract, Vec3.Add, Vec3.ScalarMul, Vec3.Dot, Vec3.Negate]
    field_simp
    linear_combination
      (n.Z * (uv.X * n.X + uv.Y * n.Y + uv.Z * n.Z + s * R)) * hn

/-- With ratio 1 the parallel part plus the perpendicular part is the incoming
unit vector again, when the normal opposes it. -/
theorem rOutParallel_one_add_perp (uv n : Vec3 ℝ)
    (hu : uv.LengthSquared = 1) (hn : n.LengthSquared = 1) (hneg : uv.Dot n < 0) :
    (rOutParallel uv n 1).Add
        (n.ScalarMul (-Real.sqrt (1 - (rOutParallel uv n 1).LengthSquared))) = uv := by
  have hsq : Real.sqrt (1 - (rOutParallel uv n 1).LengthSquared) = -(uv.Dot n) := by
    rw [rOutParallel_lengthSquared uv n 1 hu hn]
    have h : (1 : ℝ) - 1 * 1 * (1 - uv.Dot n * uv.Dot n)
        = (-(uv.Dot n)) * (-(uv.Dot n)) := by ring
    rw [h]
    exact Real.sqrt_mul_self (by linarith)
  rw [hsq]
  apply Vec3.eq_of_components <;>
    simp only [rOutParallel, Vec3.Add, Vec3.ScalarMul, Vec3.Dot, Vec3.Negate] <;>
    ring

/-- The component of `Refract(uv, n, k)` along a unit normal is minus the
square root computed by `Refract`. -/
theorem refract_dot_normal {K : Type} [LinearOrderedField K] (sqrt : K → K)
    (uv n : Vec3 K) (k : K) (hn : n.LengthSquared = 1) :
    (Refract sqrt uv n k).Dot n = -sqrt (refractRadicand uv n k) := by
  unfold Vec3.LengthSquared Vec3.Dot at hn
  set s := sqrt (refractRadicand uv n k) with hs
  simp only [Refract, rOutParallel, Vec3.Dot, Vec3.Add, Vec3.ScalarMul, Vec3.Negate]
  rw [← hs]
  linear_combination
    (-(k * (uv.X * n.X + uv.Y * n.Y + uv.Z * n.Z)) - s) * hn

/-- The parallel part computed by `Refract` has no component along a unit
normal. -/
theorem rOutParallel_dot_normal {K : Type} [LinearOrderedField K]
    (uv n : Vec3 K) (k : K) (hn : n.LengthSquared = 1) :
    (rOutParallel uv n k).Dot n = 0 := by
  unfold Vec3.LengthSquared Vec3.Dot at hn
  simp only [rOutParallel, Vec3.Dot, Vec3.Add, Vec3.ScalarMul, Vec3.Negate]
  linear_combination
    (-(k * (uv.X * n.X + uv.Y * n.Y + uv.Z * n.Z))) * hn

/-- Squared length of the vector returned by `Refract`, for a unit normal, in
terms of the value `s` of the square root. -/
theorem refract_lengthSquared {K : Type} [LinearOrderedField K] (sqrt : K → K)
    (uv n : Vec3 K) (k : K) (hn : n.LengthSquared = 1) :
    (Refract sqrt uv n k).LengthSquared
      = (rOutParallel uv n k).LengthSquared
        + sqrt (refractRadicand uv n k) * sqrt (refractRadicand uv n k) := by
  have hpn := rOutParallel_dot_normal uv n k hn
  unfold Vec3.LengthSquared Vec3.Dot at hn
  set s := sqrt (refractRadicand uv n k) with hs
  set p := rOutParallel uv n k with hp
  unfold Vec3.Dot at hpn
  simp only [Refract, Vec3.LengthSquared, Vec3.Dot, Vec3.Add, Vec3.ScalarMul]
  rw [← hs, ← hp]
  linear_combination (s * s) * hn + (-2 * s) * hpn

theorem Vec3.cross_dot_left {K : Type} [LinearOrderedField K] (a b : Vec3 K) :
    (a.Cross b).Dot a = 0 := by
  simp only [Vec3.Cross, Vec3.Dot]
  ring

theorem Vec3.cross_dot_right {K : Type} [LinearOrderedField K] (a b : Vec3 K) :
    (a.Cross b).Dot b = 0 := by
  simp only [Vec3.Cross, Vec3.Dot]
  ring

/-- Lagrange identity for the squared length of a cross product. -/
theorem Vec3.cross_lengthSquared {K : Type} [LinearOrderedField K] (a b : Vec3 K) :
    (a.Cross b).LengthSquared
      = a.LengthSquared * b.LengthSquared - a.Dot b * a.Dot b := by
  simp only [Vec3.Cross, Vec3.LengthSquared, Vec3.Dot]
  ring

theorem Vec3.unit_dot {K : Type} [LinearOrderedField K] (sqrt : K → K) (v w : Vec3 K) :
    (v.Unit sqrt).Dot w = v.Dot w / sqrt v.LengthSquared := by
  simp only [Vec3.Unit, Vec3.Length, Vec3.ScalarDiv, Vec3.Dot]
  ring

theorem Vec3.cross_unit {K : Type} [LinearOrderedField K] (sqrt : K → K) (a b : Vec3 K) :
    a.Cross (b.Unit sqrt) = (a.Cross b).ScalarDiv (sqrt b.LengthSquared) := by
  apply Vec3.eq_of_components <;>
    simp only [Vec3.Unit, Vec3.Length, Vec3.ScalarDiv, Vec3.Cross] <;>
    ring

theorem Vec3.scalarDiv_ne_zero {K : Type} [LinearOrderedField K] {v : Vec3 K} {L : K}
    (hv : v ≠ ⟨0, 0, 0⟩) (hL : L ≠ 0) : v.ScalarDiv L ≠ ⟨0, 0, 0⟩ := by
  intro h
  apply hv
  simp only [Vec3.ScalarDiv, Vec3.mk.injEq, div_eq_zero_iff, hL, or_false] at h
  exact Vec3.eq_of_components h.1 h.2.1 h.2.2

theorem Vec3.sub_ne_zero {K : Type} [LinearOrderedField K] {a b : Vec3 K}
    (h : a ≠ b) : a.Sub b ≠ ⟨0, 0, 0⟩ := by
  intro h0
  apply h
  simp only [Vec3.Sub, Vec3.mk.injEq] at h0
  exact Vec3.eq_of_components (sub_eq_zero.mp h0.1) (sub_eq_zero.mp h0.2.1)
    (sub_eq_zero.mp h0.2.2)

/-- Normalising `-f * w` for `f > 0` gives `-w`, when `w` has squared length 1. -/
theorem Vec3.unit_scalarMul_neg (w : Vec3 ℝ) (f : ℝ) (hf : 0 < f)
    (hw : w.LengthSquared = 1) :
    (w.ScalarMul (-f)).Unit Real.sqrt = w.Negate := by
  have hls : (w.ScalarMul (-f)).LengthSquared = f * f := by
    unfold Vec3.LengthSquared Vec3.Dot at hw
    simp only [Vec3.ScalarMul, Vec3.LengthSquared, Vec3.Dot]
    linear_combination (f * f) * hw
  have hsq : Real.sqrt ((w.ScalarMul (-f)).LengthSquared) = f := by
    rw [hls]
    exact Real.sqrt_mul_self hf.le
  have hne : f ≠ 0 := ne_of_gt hf
  have hunit : (w.ScalarMul (-f)).Unit Real.sqrt = (w.ScalarMul (-f)).ScalarDiv f := by
    unfold Vec3.Unit Vec3.Length
    rw [hsq]
  rw [hunit]
  apply Vec3.eq_of_components <;>
    simp only [Vec3.ScalarDiv, Vec3.ScalarMul, Vec3.Negate] <;>
    field_simp

end Aux

/-! ## Auxiliary facts about `newMaterial` -/

section AuxMaterial

theorem JMap.get_of_lookup_none {K : Type} (m : JMap K) (key : String) (h : m.lookup key = none) :
    m.get key = JValue.null := by
  unfold JMap.get
  rw [h]

theorem JMap.get_of_lookup_some {K : Type} (m : JMap K) (key : String) (v : JValue K)
    (h : m.lookup key = some v) : m.get key = v := by
  unfold JMap.get
  rw [h]

variable {K : Type} [LinearOrderedField K]

/-- The `switch` of `newMaterial` falls through to the error when the type
assertion on `"type"` fails. -/
theorem newMaterial_no_string (toLower : String → String) (m : JMap K)
    (h : (m.get "type").assertString = none) :
    newMaterial toLower m = Outcome.error "Unable to select material" := by
  unfold newMaterial
  rw [h]
  have hne1 : ¬ ("" = "lambertian") := by decide
  have hne2 : ¬ ("" = "metal") := by decide
  have hne3 : ¬ ("" = "dielectric") := by decide
  simp only [hne1, hne2, hne3, if_false]

/-- The `switch` of `newMaterial` falls through to the error when the
lower-cased type is none of the three cases. -/
theorem newMaterial_unrecognized (toLower : String → String) (m : JMap K) (t : String)
    (h : (m.get "type").assertString = some t)
    (h1 : toLower t ≠ "lambertian") (h2 : toLower t ≠ "metal")
    (h3 : toLower t ≠ "dielectric") :
    newMaterial toLower m = Outcome.error "Unable to select material" := by
  unfold newMaterial
  rw [h]
  simp [h1, h2, h3]

/-- The `case "lambertian"` of `newMaterial`. -/
theorem newMaterial_lambertian (toLower : String → String) (m : JMap K) (t : String)
    (h : (m.get "type").assertString = some t) (h1 : toLower t = "lambertian") :
    newMaterial toLower m
      = match (m.get "albedo").assertMap with
        | some albedo =>
          match albedoColor albedo with
          | some c => Outcome.ok (Material.lambertian { Albedo := c })
          | none => Outcome.panic
        | none => Outcome.ok (Material.lambertian { Albedo := ⟨0, 0, 0⟩ }) := by
  unfold newMaterial
  rw [h]
  simp [h1]

/-- The `case "metal"` of `newMaterial`. -/
theorem newMaterial_metal (toLower : String → String) (m : JMap K) (t : String)
    (h : (m.get "type").assertString = some t) (h1 : toLower t = "metal") :
    newMaterial toLower m
      = match (m.get "albedo").assertMap with
        | some albedo =>
          match albedoColor albedo with
          | some c =>
            Outcome.ok (Material.metal
              { Albedo := c, Fuzz := ((m.get "fuzz").assertFloat64).getD 0 })
          | none => Outcome.panic
        | none =>
          Outcome.ok (Material.metal
            { Albedo := ⟨0, 0, 0⟩, Fuzz := ((m.get "fuzz").assertFloat64).getD 0 }) := by
  unfold newMaterial
  rw [h]
  have hne : ¬ ("metal" = "lambertian") := by decide
  simp only [h1, hne, if_false, if_true]
  cases (m.get "fuzz").assertFloat64 <;> rfl

/-- The `case "dielectric"` of `newMaterial`. -/
theorem newMaterial_dielectric (toLower : String → String) (m : JMap K) (t : String)
    (h : (m.get "type").assertString = some t) (h1 : toLower t = "dielectric") :
    newMaterial toLower m
      = Outcome.ok (Material.dielectric
          { RefIndex := ((m.get "refindex").assertFloat64).getD 0 }) := by
  unfold newMaterial
  rw [h]
  have hne1 : ¬ ("dielectric" = "lambertian") := by decide
  have hne2 : ¬ ("dielectric" = "metal") := by decide
  simp only [h1, hne1, hne2, if_false, if_true]
  cases (m.get "refindex").assertFloat64 <;> rfl

/-- With a recognized type `newMaterial` never returns an error. -/
theorem newMaterial_recognized_ne_error (toLower : String → String) (m : JMap K)
    (t : String) (h : (m.get "type").assertString = some t)
    (hrec : toLower t = "lambertian" ∨ toLower t = "metal" ∨ toLower t = "dielectric")
    (msg : String) : newMaterial toLower m ≠ Outcome.error msg := by
  rcases hrec with h1 | h1 | h1
  · rw [newMaterial_lambertian toLower m t h h1]
    split
    · split <;> simp
    · simp
  · rw [newMaterial_metal toLower m t h h1]
    split
    · split <;> simp
    · simp
  · rw [newMaterial_dielectric toLower m t h h1]
    simp

end AuxMaterial

/-! ## Auxiliary facts about `float64` -/

section AuxFloat64

theorem F64.zero_eq : (0 : F64) = F64.fin false 0 0 := by decide

/-- In `float64`, `a <= 0` excludes `a > 0` (a NaN satisfies neither). -/
theorem F64.not_pos_of_le_zero (a : F64) (h : a ≤ 0) : ¬ a > 0 := by
  rw [F64.zero_eq] at *
  change F64.le a (F64.fin false 0 0) = true at h
  change ¬ (F64.lt (F64.fin false 0 0) a = true)
  cases a with
  | nan => simp [F64.lt]
  | inf s =>
    cases s <;> simp_all [F64.lt, F64.le, F64.eq]
  | fin s m e =>
    cases s
    · have hm : m = 0 := by
        by_contra hm
        have hlt : F64.lt (F64.fin false m e) (F64.fin false 0 0) = false := by
          simp only [F64.lt, Bool.false_eq_true, if_false, zero_mul, Nat.cast_zero, mul_zero,
            one_mul, decide_eq_false_iff_not, not_lt]
          exact Int.natCast_nonneg _
        have heq : F64.eq (F64.fin false m e) (F64.fin false 0 0) = false := by
          simp [F64.eq, hm]
        simp [F64.le, hlt, heq] at h
      subst hm
      simp [F64.lt]
    · simp only [F64.lt, Bool.false_eq_true, if_false, if_true, zero_mul, Nat.cast_zero,
        mul_zero, decide_eq_true_eq, not_lt]
      have := Int.natCast_nonneg (m * 2 ^ (e - if 0 ≤ e then 0 else e).toNat)
      linarith

end AuxFloat64

/-! ## Dielectric scattering: the domain of `Refract` -/

section Claims

/-- C1: in `DiElectric.Scatter`, for an incoming ray with nonzero direction, a
hit record with a unit-length normal, `RefIndex > 0` and any random draw,
whenever the refraction branch is taken (the condition of the `if` is false)
the scattered direction is `Refract(unit(direction), normal, etaiOverEtat)` and
the quantity `1 - |rOutParallel|^2` under its square root is nonnegative. -/
theorem dielectric_refract_in_domain (d : DiElectric ℝ) (rIn : Ray ℝ)
    (rec : HitRecord ℝ) (attenuation : Color ℝ) (scattered : Ray ℝ) (randomDouble : ℝ)
    (hdir : rIn.Direction ≠ ⟨0, 0, 0⟩)
    (hn : rec.Normal.Length Real.sqrt = 1)
    (hR : 0 < d.RefIndex)
    (hbranch : d.reflects Real.sqrt rIn rec randomDouble = false) :
    (d.Scatter Real.sqrt rIn rec attenuation scattered randomDouble).scattered.Direction
        = Refract Real.sqrt (rIn.Direction.Unit Real.sqrt) rec.Normal (d.etaiOverEtat rec)
      ∧ 0 ≤ refractRadicand (rIn.Direction.Unit Real.sqrt) rec.Normal
              (d.etaiOverEtat rec) := by
  refine ⟨by simp [DiElectric.Scatter, hbranch], ?_⟩
  have hu := Vec3.unit_lengthSquared hdir
  have hn2 := Vec3.lengthSquared_eq_one_of_length hn
  have hk : 0 < d.etaiOverEtat rec := by
    unfold DiElectric.etaiOverEtat
    split_ifs
    · exact one_div_pos.mpr hR
    · exact hR
  have hcos : DiElectric.cosTheta Real.sqrt rIn rec
      = (rIn.Direction.Unit Real.sqrt).Negate.Dot rec.Normal :=
    fmin_negate_dot_eq _ _ hu hn2
  have hneg : (rIn.Direction.Unit Real.sqrt).Negate.Dot rec.Normal
      = -((rIn.Direction.Unit Real.sqrt).Dot rec.Normal) := by
    unfold Vec3.Dot Vec3.Negate; ring
  have hpar := rOutParallel_lengthSquared (rIn.Direction.Unit Real.sqrt) rec.Normal
    (d.etaiOverEtat rec) hu hn2
  have hpar1 := rOutParallel_lengthSquared (rIn.Direction.Unit Real.sqrt) rec.Normal 1 hu hn2
  have hpar1nn := Vec3.lengthSquared_nonneg
    (rOutParallel (rIn.Direction.Unit Real.sqrt) rec.Normal 1)
  -- the refraction branch gives `etaiOverEtat * sinTheta ≤ 1`
  have hle : d.etaiOverEtat rec * DiElectric.sinTheta Real.sqrt rIn rec ≤ 1 := by
    unfold DiElectric.reflects at hbranch
    simp only [Bool.or_eq_false_iff, decide_eq_false_iff_not, gt_iff_lt, not_lt] at hbranch
    exact hbranch.1
  set c := (rIn.Direction.Unit Real.sqrt).Dot rec.Normal with hc
  set k := d.etaiOverEtat rec with hkdef
  have hrad : 0 ≤ 1 - c * c := by nlinarith
  have hsin : DiElectric.sinTheta Real.sqrt rIn rec = Real.sqrt (1 - c * c) := by
    unfold DiElectric.sinTheta
    rw [hcos, hneg]
    congr 1
    ring
  have hs0 : 0 ≤ Real.sqrt (1 - c * c) := Real.sqrt_nonneg _
  have hss : Real.sqrt (1 - c * c) * Real.sqrt (1 - c * c) = 1 - c * c :=
    Real.mul_self_sqrt hrad
  rw [hsin] at hle
  unfold refractRadicand
  rw [hpar]
  have hks : 0 ≤ k * Real.sqrt (1 - c * c) := mul_nonneg hk.le hs0
  nlinarith

theorem dielectric_refract_in_domain_witness :
    0 ≤ refractRadicand (Vec3.Unit Real.sqrt (⟨3, 0, -4⟩ : Vec3 ℝ)) ⟨0, 0, 1⟩
          (DiElectric.etaiOverEtat ⟨3 / 2⟩ ⟨⟨0, 0, 0⟩, ⟨0, 0, 1⟩, true⟩) := by
  have h25 : Real.sqrt 25 = 5 := by
    rw [show (25 : ℝ) = 5 * 5 by norm_num]
    exact Real.sqrt_mul_self (by norm_num)
  have h9 : Real.sqrt (9 / 25) = 3 / 5 := by
    rw [show (9 / 25 : ℝ) = (3 / 5) * (3 / 5) by norm_num]
    exact Real.sqrt_mul_self (by norm_num)
  refine (dielectric_refract_in_domain ⟨3 / 2⟩ ⟨⟨0, 0, 0⟩, ⟨3, 0, -4⟩⟩
    ⟨⟨0, 0, 0⟩, ⟨0, 0, 1⟩, true⟩ ⟨0, 0, 0⟩ ⟨⟨0, 0, 0⟩, ⟨0, 0, 0⟩⟩ (1 / 2)
    ?_ ?_ ?_ ?_).2
  · simp
  · simp [Vec3.Length, Vec3.LengthSquared, Vec3.Dot]
  · norm_num
  · simp only [DiElectric.reflects, DiElectric.sinTheta, DiElectric.cosTheta,
      DiElectric.etaiOverEtat, DiElectric.schlick, Vec3.Unit, Vec3.Length,
      Vec3.LengthSquared, Vec3.Dot, Vec3.ScalarDiv, Vec3.Negate, Fmin]
    norm_num [h25, h9]

/-! ## Refraction and reflection laws -/

/-- C2: dielectric reciprocity.  For a unit vector `uv`, a unit normal `n` with
`uv·n < 0` and `R > 0` such that entering is not total internal reflection
(`(1/R)^2 * (1 - (uv·n)^2) ≤ 1`), both square roots are taken of nonnegative
numbers and refracting with ratio `1/R` and then, through a parallel interface,
with ratio `R` returns the original direction. -/
theorem refract_reciprocity (uv n : Vec3 ℝ) (R : ℝ)
    (hu : uv.Length Real.sqrt = 1) (hn : n.Length Real.sqrt = 1)
    (hneg : uv.Dot n < 0) (hR : 0 < R)
    (hdom : (1 / R) ^ 2 * (1 - (uv.Dot n) ^ 2) ≤ 1) :
    0 ≤ refractRadicand uv n (1 / R)
      ∧ 0 ≤ refractRadicand (Refract Real.sqrt uv n (1 / R)) n R
      ∧ Refract Real.sqrt (Refract Real.sqrt uv n (1 / R)) n R = uv := by
  have hu2 := Vec3.lengthSquared_eq_one_of_length hu
  have hn2 := Vec3.lengthSquared_eq_one_of_length hn
  have hpar := rOutParallel_refract Real.sqrt uv n R hn2 (ne_of_gt hR)
  refine ⟨?_, ?_, ?_⟩
  · rw [refractRadicand_unit uv n (1 / R) hu2 hn2]
    nlinarith
  · unfold refractRadicand
    rw [hpar, rOutParallel_lengthSquared uv n 1 hu2 hn2]
    nlinarith [mul_self_nonneg (uv.Dot n)]
  · show (rOutParallel (Refract Real.sqrt uv n (1 / R)) n R).Add
        (n.ScalarMul (-Real.sqrt (refractRadicand (Refract Real.sqrt uv n (1 / R)) n R))) = uv
    unfold refractRadicand
    rw [hpar]
    exact rOutParallel_one_add_perp uv n hu2 hn2 hneg

theorem refract_reciprocity_witness :
    Refract Real.sqrt (Refract Real.sqrt (⟨3 / 5, 0, -4 / 5⟩ : Vec3 ℝ) ⟨0, 0, 1⟩ (1 / (3 / 2)))
      ⟨0, 0, 1⟩ (3 / 2) = ⟨3 / 5, 0, -4 / 5⟩ := by
  refine (refract_reciprocity ⟨3 / 5, 0, -4 / 5⟩ ⟨0, 0, 1⟩ (3 / 2) ?_ ?_ ?_ ?_ ?_).2.2
  · simp only [Vec3.Length, Vec3.LengthSquared, Vec3.Dot]
    norm_num
  · simp [Vec3.Length, Vec3.LengthSquared, Vec3.Dot]
  · simp only [Vec3.Dot]
    norm_num
  · norm_num
  · simp only [Vec3.Dot]
    norm_num

/-- C3, amended: in exact real arithmetic, for a unit vector `uv` and a unit
normal `n` with `uv·n < 0`, `Refract(uv, n, 1.0) = uv` (and the square root is
taken of a nonnegative number): with a refraction ratio of exactly 1 the output
direction equals the input direction. -/
theorem refract_ratio_one (uv n : Vec3 ℝ)
    (hu : uv.Length Real.sqrt = 1) (hn : n.Length Real.sqrt = 1)
    (hneg : uv.Dot n < 0) :
    0 ≤ refractRadicand uv n 1 ∧ Refract Real.sqrt uv n 1 = uv := by
  have hu2 := Vec3.lengthSquared_eq_one_of_length hu
  have hn2 := Vec3.lengthSquared_eq_one_of_length hn
  refine ⟨?_, ?_⟩
  · rw [refractRadicand_unit uv n 1 hu2 hn2]
    nlinarith [mul_self_nonneg (uv.Dot n)]
  · show (rOutParallel uv n 1).Add
        (n.ScalarMul (-Real.sqrt (refractRadicand uv n 1))) = uv
    unfold refractRadicand
    exact rOutParallel_one_add_perp uv n hu2 hn2 hneg

theorem refract_ratio_one_witness :
    Refract Real.sqrt (⟨3 / 5, 0, -4 / 5⟩ : Vec3 ℝ) ⟨0, 0, 1⟩ 1 = ⟨3 / 5, 0, -4 / 5⟩ := by
  refine (refract_ratio_one ⟨3 / 5, 0, -4 / 5⟩ ⟨0, 0, 1⟩ ?_ ?_ ?_).2
  · simp only [Vec3.Length, Vec3.LengthSquared, Vec3.Dot]
    norm_num
  · simp [Vec3.Length, Vec3.LengthSquared, Vec3.Dot]
  · simp only [Vec3.Dot]
    norm_num

/-- C4, amended: in exact real arithmetic, for every vector `v` and every
unit-length normal `n`, `Reflect(v, n)` equals `v - 2(v·n)n`, has the same
length as `v`, and satisfies `Reflect(v, n)·n = -(v·n)`. -/
theorem reflect_length_and_dot (v n : Vec3 ℝ) (hn : n.Length Real.sqrt = 1) :
    Reflect v n = v.Sub (n.ScalarMul (2 * v.Dot n))
      ∧ (Reflect v n).Length Real.sqrt = v.Length Real.sqrt
      ∧ (Reflect v n).Dot n = -(v.Dot n) := by
  have hn2 := Vec3.lengthSquared_eq_one_of_length hn
  unfold Vec3.LengthSquared Vec3.Dot at hn2
  refine ⟨?_, ?_, ?_⟩
  · unfold Reflect
    rw [mul_comm]
  · unfold Vec3.Length
    congr 1
    simp only [Reflect, Vec3.LengthSquared, Vec3.Dot, Vec3.Sub, Vec3.ScalarMul]
    linear_combination
      (4 * (v.X * n.X + v.Y * n.Y + v.Z * n.Z) ^ 2) * hn2
  · simp only [Reflect, Vec3.Dot, Vec3.Sub, Vec3.ScalarMul]
    linear_combination
      (-2 * (v.X * n.X + v.Y * n.Y + v.Z * n.Z)) * hn2

theorem reflect_length_and_dot_witness :
    (Reflect (⟨3, 0, -4⟩ : Vec3 ℝ) ⟨0, 0, 1⟩).Dot ⟨0, 0, 1⟩
      = -(Vec3.Dot (⟨3, 0, -4⟩ : Vec3 ℝ) ⟨0, 0, 1⟩) :=
  (reflect_length_and_dot ⟨3, 0, -4⟩ ⟨0, 0, 1⟩
    (by simp [Vec3.Length, Vec3.LengthSquared, Vec3.Dot])).2.2

/-! ## `DiElectric.Scatter` -/

/-- C5: `DiElectric.Scatter` chooses its branch as specified, in every
arithmetic (the one of `float64` included: no property of `+ - * /`, `<` or the
square root is used).  With `etaiOverEtat = 1/RefIndex` when `rec.FrontFace` and
`RefIndex` otherwise, `cosTheta = Fmin((-unit(direction))·normal, 1)` and
`sinTheta = sqrt(1 - cosTheta*cosTheta)`, the `if` of the function is taken if
and only if `etaiOverEtat*sinTheta > 1` or the uniform draw is below
`schlick(cosTheta, etaiOverEtat)`; the scattered direction is
`Reflect(unit(direction), normal)` when it is taken and
`Refract(unit(direction), normal, etaiOverEtat)` otherwise. -/
theorem dielectric_scatter_branch {K : Type} [HAdd K K K] [HSub K K K] [HMul K K K]
    [HDiv K K K] [Neg K] [HPow K ℕ K] [OfNat K 1] [OfNat K 2] [LT K]
    [∀ a b : K, Decidable (a < b)]
    (sqrt : K → K) (d : DiElectric K) (rIn : Ray K) (rec : HitRecord K)
    (attenuation : Color K) (scattered : Ray K) (randomDouble : K) :
    (d.reflects sqrt rIn rec randomDouble = true
        ↔ ((if rec.FrontFace = true then 1 / d.RefIndex else d.RefIndex)
              * sqrt (1 - Fmin ((rIn.Direction.Unit sqrt).Negate.Dot rec.Normal) 1
                          * Fmin ((rIn.Direction.Unit sqrt).Negate.Dot rec.Normal) 1) > 1
            ∨ randomDouble
                < d.schlick (Fmin ((rIn.Direction.Unit sqrt).Negate.Dot rec.Normal) 1)
                    (if rec.FrontFace = true then 1 / d.RefIndex else d.RefIndex)))
      ∧ (d.Scatter sqrt rIn rec attenuation scattered randomDouble).scattered.Direction
          = (if (if rec.FrontFace = true then 1 / d.RefIndex else d.RefIndex)
                  * sqrt (1 - Fmin ((rIn.Direction.Unit sqrt).Negate.Dot rec.Normal) 1
                              * Fmin ((rIn.Direction.Unit sqrt).Negate.Dot rec.Normal) 1) > 1
                ∨ randomDouble
                    < d.schlick (Fmin ((rIn.Direction.Unit sqrt).Negate.Dot rec.Normal) 1)
                        (if rec.FrontFace = true then 1 / d.RefIndex else d.RefIndex)
             then Reflect (rIn.Direction.Unit sqrt) rec.Normal
             else Refract sqrt (rIn.Direction.Unit sqrt) rec.Normal
                    (if rec.FrontFace = true then 1 / d.RefIndex else d.RefIndex)) := by
  have hguard : d.reflects sqrt rIn rec randomDouble = true
      ↔ ((if rec.FrontFace = true then 1 / d.RefIndex else d.RefIndex)
            * sqrt (1 - Fmin ((rIn.Direction.Unit sqrt).Negate.Dot rec.Normal) 1
                        * Fmin ((rIn.Direction.Unit sqrt).Negate.Dot rec.Normal) 1) > 1
          ∨ randomDouble
              < d.schlick (Fmin ((rIn.Direction.Unit sqrt).Negate.Dot rec.Normal) 1)
                  (if rec.FrontFace = true then 1 / d.RefIndex else d.RefIndex)) := by
    simp only [DiElectric.reflects, DiElectric.sinTheta, DiElectric.cosTheta,
      DiElectric.etaiOverEtat, Bool.or_eq_true, decide_eq_true_eq]
  refine ⟨hguard, ?_⟩
  by_cases h : d.reflects sqrt rIn rec randomDouble = true
  · rw [if_pos (hguard.mp h)]
    simp only [DiElectric.Scatter, h, if_true]
  · rw [if_neg (fun hg => h (hguard.mpr hg))]
    simp only [DiElectric.Scatter, h, DiElectric.etaiOverEtat]
    rfl

section Generic

variable {K : Type} [LinearOrderedField K]

/-- C6: for every incoming ray, hit record, `RefIndex` and random draw,
`DiElectric.Scatter` returns true, sets the attenuation to `(1,1,1)` and sets
the scattered ray's origin to the hit point `rec.P`, in either branch. -/
theorem dielectric_scatter_always (sqrt : K → K) (d : DiElectric K) (rIn : Ray K)
    (rec : HitRecord K) (attenuation : Color K) (scattered : Ray K) (randomDouble : K) :
    (d.Scatter sqrt rIn rec attenuation scattered randomDouble).ok = true
      ∧ (d.Scatter sqrt rIn rec attenuation scattered randomDouble).attenuation
          = ⟨1, 1, 1⟩
      ∧ (d.Scatter sqrt rIn rec attenuation scattered randomDouble).scattered.Origin
          = rec.P := by
  unfold DiElectric.Scatter
  by_cases h : d.reflects sqrt rIn rec randomDouble = true
  · simp [h]
  · simp [h]

/-- C7: the reflectance used by `DiElectric` is
`schlick(c, n) = r0*(1 - r0)*(1 - c)^5` with `r0 = ((1 - n)/(1 + n))^2`, and for
every cosine `c` in `[0,1]` and every `n > 0` with `n ≠ 1` it is strictly
smaller than the textbook Schlick value `r0 + (1 - r0)*(1 - c)^5`. -/
theorem schlick_below_textbook (d : DiElectric K) (c n : K)
    (hc0 : 0 ≤ c) (hc1 : c ≤ 1) (hn0 : 0 < n) (hn1 : n ≠ 1) :
    d.schlick c n
        = ((1 - n) / (1 + n)) ^ 2 * (1 - ((1 - n) / (1 + n)) ^ 2) * (1 - c) ^ 5
      ∧ d.schlick c n
        < ((1 - n) / (1 + n)) ^ 2 + (1 - ((1 - n) / (1 + n)) ^ 2) * (1 - c) ^ 5 := by
  have hdef : d.schlick c n
      = ((1 - n) / (1 + n)) ^ 2 * (1 - ((1 - n) / (1 + n)) ^ 2) * (1 - c) ^ 5 := by
    unfold DiElectric.schlick
    simp only [pow_two]
  refine ⟨hdef, ?_⟩
  rw [hdef]
  have hq : (1 - n) / (1 + n) ≠ 0 := by
    apply div_ne_zero
    · intro h
      apply hn1
      linarith
    · exact ne_of_gt (by linarith)
  have hr0 : 0 < ((1 - n) / (1 + n)) ^ 2 := by positivity
  have hx : 0 ≤ (1 - c) ^ 5 := pow_nonneg (by linarith) 5
  have hsq : 0 ≤ (1 - ((1 - n) / (1 + n)) ^ 2) ^ 2 := sq_nonneg _
  nlinarith [mul_nonneg hsq hx]

theorem schlick_below_textbook_witness :
    DiElectric.schlick (⟨3 / 2⟩ : DiElectric ℚ) (1 / 2) (3 / 2)
      < ((1 - 3 / 2) / (1 + 3 / 2)) ^ 2
          + (1 - ((1 - 3 / 2) / (1 + 3 / 2)) ^ 2) * (1 - 1 / 2) ^ 5 :=
  (schlick_below_textbook ⟨3 / 2⟩ (1 / 2) (3 / 2)
    (by norm_num) (by norm_num) (by norm_num) (by norm_num)).2

/-! ## `Metal.Scatter` and `Lambertian.Scatter` -/

/-- C8: for a `Metal` with `Fuzz = 0`, an incoming ray with nonzero direction,
any hit record and any value of the random-in-unit-sphere sampler, the
scattered direction set by `Metal.Scatter` equals
`Reflect(unit(incoming direction), rec.Normal)` exactly. -/
theorem metal_scatter_no_fuzz (sqrt : K → K) (m : Metal K) (rIn : Ray K)
    (rec : HitRecord K) (attenuation : Color K) (scattered : Ray K)
    (randomInSphere : Vec3 K)
    (hfuzz : m.Fuzz = 0) (hdir : rIn.Direction ≠ ⟨0, 0, 0⟩) :
    (m.Scatter sqrt rIn rec attenuation scattered randomInSphere).scattered.Direction
      = Reflect (rIn.Direction.Unit sqrt) rec.Normal := by
  simp only [Metal.Scatter, hfuzz]
  apply Vec3.eq_of_components <;> simp [Vec3.Add, Vec3.ScalarMul]

/-- C10: for every `Lambertian`, incoming ray, hit record and random unit
vector `r`, `Lambertian.Scatter` returns true, sets the attenuation to the
material's `Albedo`, and sets the scattered ray to origin `rec.P` with
direction `rec.Normal + r`; the result does not depend on the incoming ray. -/
theorem lambertian_scatter_spec (l : Lambertian K) (rIn : Ray K)
    (rec : HitRecord K) (attenuation : Color K) (scattered : Ray K)
    (randomUnitVector : Vec3 K) :
    (l.Scatter rIn rec attenuation scattered randomUnitVector).ok = true
      ∧ (l.Scatter rIn rec attenuation scattered randomUnitVector).attenuation
          = l.Albedo
      ∧ (l.Scatter rIn rec attenuation scattered randomUnitVector).scattered
          = { Origin := rec.P, Direction := rec.Normal.Add randomUnitVector }
      ∧ ∀ rIn2 : Ray K,
          l.Scatter rIn2 rec attenuation scattered randomUnitVector
            = l.Scatter rIn rec attenuation scattered randomUnitVector :=
  ⟨rfl, rfl, rfl, fun _ => rfl⟩

end Generic

/-- C9: for every `Metal`, incoming ray, hit record and random sphere sample
`r`, in every arithmetic in which `a ≤ 0` excludes `a > 0` (the one of
`float64` included), `Metal.Scatter` sets the outgoing direction to
`Reflect(unit(incoming direction), normal) + r*Fuzz` and the attenuation to
`Albedo`, and returns true if and only if `outgoing·normal > 0`; it returns
false when `outgoing·normal ≤ 0`. -/
theorem metal_scatter_spec {K : Type} [HAdd K K K] [HSub K K K] [HMul K K K]
    [HDiv K K K] [OfNat K 0] [OfNat K 2] [LT K] [LE K] [∀ a b : K, Decidable (a < b)]
    (sqrt : K → K) (m : Metal K) (rIn : Ray K) (rec : HitRecord K)
    (attenuation : Color K) (scattered : Ray K) (randomInSphere : Vec3 K)
    (hle : ∀ a : K, a ≤ 0 → ¬ a > 0) :
    (m.Scatter sqrt rIn rec attenuation scattered randomInSphere).scattered.Direction
        = (Reflect (rIn.Direction.Unit sqrt) rec.Normal).Add
            (randomInSphere.ScalarMul m.Fuzz)
      ∧ (m.Scatter sqrt rIn rec attenuation scattered randomInSphere).attenuation
          = m.Albedo
      ∧ ((m.Scatter sqrt rIn rec attenuation scattered randomInSphere).ok = true
          ↔ (m.Scatter sqrt rIn rec attenuation scattered
                randomInSphere).scattered.Direction.Dot rec.Normal > 0)
      ∧ ((m.Scatter sqrt rIn rec attenuation scattered
                randomInSphere).scattered.Direction.Dot rec.Normal ≤ 0
          → (m.Scatter sqrt rIn rec attenuation scattered randomInSphere).ok = false) := by
  have hok : (m.Scatter sqrt rIn rec attenuation scattered randomInSphere).ok = true
      ↔ (m.Scatter sqrt rIn rec attenuation scattered
            randomInSphere).scattered.Direction.Dot rec.Normal > 0 := by
    simp only [Metal.Scatter, decide_eq_true_eq]
  refine ⟨rfl, rfl, hok, ?_⟩
  intro h
  have hnot := hle _ h
  cases hb : (m.Scatter sqrt rIn rec attenuation scattered randomInSphere).ok with
  | false => rfl
  | true => exact absurd (hok.mp hb) hnot

theorem metal_scatter_spec_witness :
    (Metal.Scatter F64.sqrt ⟨⟨1, 1, 1⟩, F64.ofRatio 1 2⟩ ⟨⟨0, 0, 0⟩, ⟨0, 0, 0⟩⟩
        ⟨⟨0, 0, 0⟩, ⟨0, 0, 1⟩, true⟩ ⟨0, 0, 0⟩ ⟨⟨0, 0, 0⟩, ⟨0, 0, 0⟩⟩
        ⟨F64.ofRatio 1 10, F64.ofRatio 2 10, F64.ofRatio 3 10⟩).ok = true
      ↔ (Metal.Scatter F64.sqrt ⟨⟨1, 1, 1⟩, F64.ofRatio 1 2⟩ ⟨⟨0, 0, 0⟩, ⟨0, 0, 0⟩⟩
          ⟨⟨0, 0, 0⟩, ⟨0, 0, 1⟩, true⟩ ⟨0, 0, 0⟩ ⟨⟨0, 0, 0⟩, ⟨0, 0, 0⟩⟩
          ⟨F64.ofRatio 1 10, F64.ofRatio 2 10,
            F64.ofRatio 3 10⟩).scattered.Direction.Dot ⟨0, 0, 1⟩ > 0 :=
  (metal_scatter_spec F64.sqrt ⟨⟨1, 1, 1⟩, F64.ofRatio 1 2⟩ ⟨⟨0, 0, 0⟩, ⟨0, 0, 0⟩⟩
    ⟨⟨0, 0, 0⟩, ⟨0, 0, 1⟩, true⟩ ⟨0, 0, 0⟩ ⟨⟨0, 0, 0⟩, ⟨0, 0, 0⟩⟩
    ⟨F64.ofRatio 1 10, F64.ofRatio 2 10, F64.ofRatio 3 10⟩
    F64.not_pos_of_le_zero).2.2.1

theorem metal_scatter_no_fuzz_witness :
    (Metal.Scatter Real.sqrt ⟨⟨1, 1, 1⟩, 0⟩ ⟨⟨0, 0, 0⟩, ⟨3, 0, -4⟩⟩
        ⟨⟨0, 0, 0⟩, ⟨0, 0, 1⟩, true⟩ ⟨0, 0, 0⟩ ⟨⟨0, 0, 0⟩, ⟨0, 0, 0⟩⟩
        ⟨1 / 2, 1 / 2, 1 / 2⟩).scattered.Direction
      = Reflect (Vec3.Unit Real.sqrt (⟨3, 0, -4⟩ : Vec3 ℝ)) ⟨0, 0, 1⟩ :=
  metal_scatter_no_fuzz Real.sqrt ⟨⟨1, 1, 1⟩, 0⟩ ⟨⟨0, 0, 0⟩, ⟨3, 0, -4⟩⟩
    ⟨⟨0, 0, 0⟩, ⟨0, 0, 1⟩, true⟩ ⟨0, 0, 0⟩ ⟨⟨0, 0, 0⟩, ⟨0, 0, 0⟩⟩
    ⟨1 / 2, 1 / 2, 1 / 2⟩ rfl (by simp)

/-! ## Vector algebra laws -/

/-- C18: for every nonzero vector `a`, `Unit(a) = a / Length(a)` has `Length`
exactly 1 over the reals, where `Length(a) = sqrt(LengthSquared(a))` and
`LengthSquared(a) = a.Dot(a)`. -/
theorem unit_length_one (a : Vec3 ℝ) (ha : a ≠ ⟨0, 0, 0⟩) :
    a.Unit Real.sqrt = a.ScalarDiv (a.Length Real.sqrt)
      ∧ a.Length Real.sqrt = Real.sqrt a.LengthSquared
      ∧ a.LengthSquared = a.Dot a
      ∧ (a.Unit Real.sqrt).Length Real.sqrt = 1 := by
  refine ⟨rfl, rfl, rfl, ?_⟩
  unfold Vec3.Length
  rw [Vec3.unit_lengthSquared ha]
  exact Real.sqrt_one

theorem unit_length_one_witness :
    (Vec3.Unit Real.sqrt (⟨3, 0, -4⟩ : Vec3 ℝ)).Length Real.sqrt = 1 :=
  (unit_length_one ⟨3, 0, -4⟩ (by simp)).2.2.2

/-- C19, amended: in exact arithmetic (any ordered field, the reals among them)
the vector algebra laws hold for all vectors `a`, `b`, `c`:
`a.Add(b) = b.Add(a)`; `a.Add(b).Add(c) = a.Add(b.Add(c))`;
`a.Dot(b) = b.Dot(a)`; `a.Cross(b) = b.Cross(a).Negate()`. -/
theorem vector_algebra_laws {K : Type} [LinearOrderedField K] (a b c : Vec3 K) :
    a.Add b = b.Add a
      ∧ (a.Add b).Add c = a.Add (b.Add c)
      ∧ a.Dot b = b.Dot a
      ∧ a.Cross b = (b.Cross a).Negate := by
  refine ⟨?_, ?_, ?_, ?_⟩
  · apply Vec3.eq_of_components <;> simp only [Vec3.Add] <;> ring
  · apply Vec3.eq_of_components <;> simp only [Vec3.Add] <;> ring
  · simp only [Vec3.Dot]
    ring
  · apply Vec3.eq_of_components <;> simp only [Vec3.Cross, Vec3.Negate] <;> ring

/-- C20, amended: in exact real arithmetic `Refract` preserves unit length
inside its valid domain.  For a unit
vector `uv`, a unit normal `n` and a ratio `k` with
`k^2 * (1 - (uv·n)^2) ≤ 1`, the square root is taken of a nonnegative number,
`Refract(uv, n, k)` has length 1, and its component perpendicular to `n` equals
`k` times the component of `uv` perpendicular to `n`. -/
theorem refract_unit_length (uv n : Vec3 ℝ) (k : ℝ)
    (hu : uv.Length Real.sqrt = 1) (hn : n.Length Real.sqrt = 1)
    (hdom : k ^ 2 * (1 - (uv.Dot n) ^ 2) ≤ 1) :
    0 ≤ refractRadicand uv n k
      ∧ (Refract Real.sqrt uv n k).Length Real.sqrt = 1
      ∧ (Refract Real.sqrt uv n k).Sub (n.ScalarMul ((Refract Real.sqrt uv n k).Dot n))
          = (uv.Sub (n.ScalarMul (uv.Dot n))).ScalarMul k := by
  have hu2 := Vec3.lengthSquared_eq_one_of_length hu
  have hn2 := Vec3.lengthSquared_eq_one_of_length hn
  have hrad : 0 ≤ refractRadicand uv n k := by
    rw [refractRadicand_unit uv n k hu2 hn2]
    nlinarith
  refine ⟨hrad, ?_, ?_⟩
  · unfold Vec3.Length
    rw [refract_lengthSquared Real.sqrt uv n k hn2, Real.mul_self_sqrt hrad]
    unfold refractRadicand
    rw [add_sub_cancel]
    exact Real.sqrt_one
  · rw [refract_dot_normal Real.sqrt uv n k hn2]
    apply Vec3.eq_of_components <;>
      simp only [Refract, rOutParallel, Vec3.Dot, Vec3.Add, Vec3.Sub, Vec3.ScalarMul,
        Vec3.Negate] <;>
      ring

theorem refract_unit_length_witness :
    (Refract Real.sqrt (⟨3 / 5, 0, -4 / 5⟩ : Vec3 ℝ) ⟨0, 0, 1⟩ (2 / 3)).Length Real.sqrt = 1 := by
  refine (refract_unit_length ⟨3 / 5, 0, -4 / 5⟩ ⟨0, 0, 1⟩ (2 / 3) ?_ ?_ ?_).2.1
  · simp only [Vec3.Length, Vec3.LengthSquared, Vec3.Dot]
    norm_num
  · simp [Vec3.Length, Vec3.LengthSquared, Vec3.Dot]
  · simp only [Vec3.Dot]
    norm_num

/-! ## Camera -/

/-- C17, amended: in exact arithmetic (any ordered field, the reals among them)
`GetRay` keeps the focal-plane target fixed under lens jitter.  For every
camera, every `s`, `t` and every lens-disk sample `rd`, the returned ray
has origin `Origin + offset` with
`offset = U*(rd.X*LensRadius) + V*(rd.Y*LensRadius)`, and
`origin + direction = LowerLeft + Horizontal*s + Vertical*t`, which does not
depend on `rd`. -/
theorem getRay_focal_target {K : Type} [LinearOrderedField K] (c : Camera K)
    (s t : K) (rd : Vec3 K) :
    (c.GetRay s t rd).Origin
        = c.Origin.Add
            ((c.U.ScalarMul (rd.X * c.LensRadius)).Add
              (c.V.ScalarMul (rd.Y * c.LensRadius)))
      ∧ (c.GetRay s t rd).Origin.Add (c.GetRay s t rd).Direction
          = (c.LowerLeft.Add (c.Horizontal.ScalarMul s)).Add (c.Vertical.ScalarMul t)
      ∧ ∀ rd2 : Vec3 K,
          (c.GetRay s t rd2).Origin.Add (c.GetRay s t rd2).Direction
            = (c.GetRay s t rd).Origin.Add (c.GetRay s t rd).Direction := by
  have key : ∀ r : Vec3 K,
      (c.GetRay s t r).Origin.Add (c.GetRay s t r).Direction
        = (c.LowerLeft.Add (c.Horizontal.ScalarMul s)).Add (c.Vertical.ScalarMul t) := by
    intro r
    apply Vec3.eq_of_components <;>
      simp only [Camera.GetRay, Vec3.Add, Vec3.Sub, Vec3.ScalarMul] <;>
      ring
  refine ⟨rfl, key rd, ?_⟩
  intro rd2
  rw [key rd2, key rd]

/-- C15, amended: in exact real arithmetic, for a camera built by `InitCamera`
with aperture 0 from `lookFrom ≠ lookAt` and a `viewUp` not parallel to
`lookFrom - lookAt`, and for every lens-disk sample, `GetRay(0.5, 0.5)` returns
a ray whose origin is `lookFrom` and whose direction is `-focusDist * W`; for
`focusDist > 0` its normalized direction is `-W`; and for lookFrom=(0,0,0),
lookAt=(0,0,-1), viewUp=(0,1,0), vfov=90, aspect=1, focusDist=1 the direction
is (0,0,-1). -/
theorem getRay_center_no_aperture (tan degrees2radians : ℝ → ℝ)
    (lookfrom lookat : Point ℝ) (vup : Vec3 ℝ) (vfov aspect focusDist : ℝ)
    (rd : Vec3 ℝ) (c : Camera ℝ)
    (hc : c = InitCamera Real.sqrt tan degrees2radians lookfrom lookat vup vfov aspect 0
                focusDist)
    (hne : lookfrom ≠ lookat)
    (hpar : vup.Cross (lookfrom.Sub lookat) ≠ ⟨0, 0, 0⟩) :
    (c.GetRay (1 / 2) (1 / 2) rd).Origin = lookfrom
      ∧ (c.GetRay (1 / 2) (1 / 2) rd).Direction = c.W.ScalarMul (-focusDist)
      ∧ (0 < focusDist →
          (c.GetRay (1 / 2) (1 / 2) rd).Direction.Unit Real.sqrt = c.W.Negate)
      ∧ ((InitCamera Real.sqrt tan degrees2radians ⟨0, 0, 0⟩ ⟨0, 0, -1⟩ ⟨0, 1, 0⟩ 90 1 0
            1).GetRay (1 / 2) (1 / 2) rd).Direction = ⟨0, 0, -1⟩ := by
  have horigin : (c.GetRay (1 / 2) (1 / 2) rd).Origin = lookfrom := by
    rw [hc]
    apply Vec3.eq_of_components <;>
      simp [Camera.GetRay, InitCamera, Vec3.Add, Vec3.ScalarMul]
  have hdirection : ∀ (from2 at2 : Point ℝ) (up2 : Vec3 ℝ) (fov2 asp2 fd2 : ℝ),
      ((InitCamera Real.sqrt tan degrees2radians from2 at2 up2 fov2 asp2 0
          fd2).GetRay (1 / 2) (1 / 2) rd).Direction
        = (InitCamera Real.sqrt tan degrees2radians from2 at2 up2 fov2 asp2 0
            fd2).W.ScalarMul (-fd2) := by
    intro from2 at2 up2 fov2 asp2 fd2
    apply Vec3.eq_of_components <;>
      simp only [Camera.GetRay, InitCamera, Vec3.Add, Vec3.Sub, Vec3.ScalarMul,
        Vec3.ScalarDiv] <;>
      ring
  have hdir : (c.GetRay (1 / 2) (1 / 2) rd).Direction = c.W.ScalarMul (-focusDist) := by
    rw [hc]
    exact hdirection lookfrom lookat vup vfov aspect focusDist
  refine ⟨horigin, hdir, ?_, ?_⟩
  · intro hf
    rw [hdir]
    apply Vec3.unit_scalarMul_neg c.W focusDist hf
    have hw : c.W = (lookfrom.Sub lookat).Unit Real.sqrt := by
      rw [hc]
      rfl
    rw [hw]
    exact Vec3.unit_lengthSquared (Vec3.sub_ne_zero hne)
  · rw [hdirection]
    apply Vec3.eq_of_components <;>
      simp [InitCamera, Vec3.Unit, Vec3.Length, Vec3.LengthSquared, Vec3.Dot, Vec3.Sub,
        Vec3.ScalarDiv, Vec3.ScalarMul]

theorem getRay_center_no_aperture_witness :
    ((InitCamera Real.sqrt Real.tan (fun x => x * Real.pi / 180) ⟨0, 0, 0⟩ ⟨0, 0, -1⟩
        ⟨0, 1, 0⟩ 90 1 0 1).GetRay (1 / 2) (1 / 2) ⟨0, 0, 0⟩).Direction.Unit Real.sqrt
      = (InitCamera Real.sqrt Real.tan (fun x => x * Real.pi / 180) ⟨0, 0, 0⟩ ⟨0, 0, -1⟩
          ⟨0, 1, 0⟩ 90 1 0 1).W.Negate :=
  (getRay_center_no_aperture Real.tan (fun x => x * Real.pi / 180) ⟨0, 0, 0⟩ ⟨0, 0, -1⟩
    ⟨0, 1, 0⟩ 90 1 1 ⟨0, 0, 0⟩ _ rfl (by simp) (by simp [Vec3.Cross, Vec3.Sub])).2.2.1
    (by norm_num)

/-- C16, amended: in exact real arithmetic `InitCamera` derives an orthonormal
basis.  For `lookFrom ≠ lookAt` and `viewUp` not parallel to `lookFrom - lookAt` (their cross product is not the
zero vector), the stored vectors `W = unit(lookFrom - lookAt)`,
`U = unit(viewUp × W)`, `V = W × U` each have length 1 and are pairwise
orthogonal. -/
theorem initCamera_orthonormal (tan degrees2radians : ℝ → ℝ)
    (lookfrom lookat : Point ℝ) (vup : Vec3 ℝ) (vfov aspect aperture focusDist : ℝ)
    (c : Camera ℝ)
    (hc : c = InitCamera Real.sqrt tan degrees2radians lookfrom lookat vup vfov aspect
                aperture focusDist)
    (hne : lookfrom ≠ lookat)
    (hpar : vup.Cross (lookfrom.Sub lookat) ≠ ⟨0, 0, 0⟩) :
    c.W = (lookfrom.Sub lookat).Unit Real.sqrt
      ∧ c.U = (vup.Cross c.W).Unit Real.sqrt
      ∧ c.V = c.W.Cross c.U
      ∧ c.W.Length Real.sqrt = 1
      ∧ c.U.Length Real.sqrt = 1
      ∧ c.V.Length Real.sqrt = 1
      ∧ c.U.Dot c.V = 0
      ∧ c.U.Dot c.W = 0
      ∧ c.V.Dot c.W = 0 := by
  have hW : c.W = (lookfrom.Sub lookat).Unit Real.sqrt := by
    rw [hc]
    rfl
  have hU : c.U = (vup.Cross c.W).Unit Real.sqrt := by
    rw [hc]
    rfl
  have hV : c.V = c.W.Cross c.U := by
    rw [hc]
    rfl
  have hd := Vec3.sub_ne_zero hne
  have hL : Real.sqrt (lookfrom.Sub lookat).LengthSquared ≠ 0 :=
    ne_of_gt (Real.sqrt_pos.mpr (Vec3.lengthSquared_pos hd))
  have hW1 : c.W.LengthSquared = 1 := by
    rw [hW]
    exact Vec3.unit_lengthSquared hd
  have hcross : vup.Cross c.W ≠ ⟨0, 0, 0⟩ := by
    rw [hW, Vec3.cross_unit]
    exact Vec3.scalarDiv_ne_zero hpar hL
  have hU1 : c.U.LengthSquared = 1 := by
    rw [hU]
    exact Vec3.unit_lengthSquared hcross
  have hUW : c.U.Dot c.W = 0 := by
    rw [hU, Vec3.unit_dot, Vec3.cross_dot_right]
    exact zero_div _
  have hWU : c.W.Dot c.U = 0 := by
    have hcomm : c.W.Dot c.U = c.U.Dot c.W := by
      simp only [Vec3.Dot]
      ring
    rw [hcomm, hUW]
  have hV1 : c.V.LengthSquared = 1 := by
    rw [hV, Vec3.cross_lengthSquared, hW1, hU1, hWU]
    norm_num
  have hVW : c.V.Dot c.W = 0 := by
    rw [hV]
    exact Vec3.cross_dot_left _ _
  have hUV : c.U.Dot c.V = 0 := by
    have hcomm : c.U.Dot c.V = c.V.Dot c.U := by
      simp only [Vec3.Dot]
      ring
    rw [hcomm, hV]
    exact Vec3.cross_dot_right _ _
  refine ⟨hW, hU, hV, ?_, ?_, ?_, hUV, hUW, hVW⟩
  · unfold Vec3.Length
    rw [hW1]
    exact Real.sqrt_one
  · unfold Vec3.Length
    rw [hU1]
    exact Real.sqrt_one
  · unfold Vec3.Length
    rw [hV1]
    exact Real.sqrt_one

theorem initCamera_orthonormal_witness :
    (InitCamera Real.sqrt Real.tan (fun x => x * Real.pi / 180) ⟨0, 0, 0⟩ ⟨0, 0, -1⟩
        ⟨0, 1, 0⟩ 90 1 0 1).V.Length Real.sqrt = 1 :=
  (initCamera_orthonormal Real.tan (fun x => x * Real.pi / 180) ⟨0, 0, 0⟩ ⟨0, 0, -1⟩
    ⟨0, 1, 0⟩ 90 1 0 1 _ rfl (by simp) (by simp [Vec3.Cross, Vec3.Sub])).2.2.2.2.2.1

/-! ## `newMaterial` -/

section Construction

variable {K : Type} [LinearOrderedField K]

/-- C11: `newMaterial` returns an error (and no material) if and only if the
description's `"type"` entry is missing, is not a string, or, after
lower-casing, is none of `"lambertian"`, `"metal"`, `"dielectric"`; and two
descriptions that differ only in the letter case of the type (same lower-cased
type) give the same result. -/
theorem newMaterial_error_iff (toLower : String → String) (m : JMap K) :
    ((∃ msg, newMaterial toLower m = Outcome.error msg)
        ↔ (m.lookup "type" = none
            ∨ (∃ v, m.lookup "type" = some v ∧ ∀ s, v ≠ JValue.str s)
            ∨ (∃ s, m.lookup "type" = some (JValue.str s)
                ∧ toLower s ≠ "lambertian" ∧ toLower s ≠ "metal"
                ∧ toLower s ≠ "dielectric")))
      ∧ (∀ (t1 t2 : String) (rest : JMap K), toLower t1 = toLower t2 →
          newMaterial toLower (("type", JValue.str t1) :: rest)
            = newMaterial toLower (("type", JValue.str t2) :: rest)) := by
  constructor
  · cases hl : m.lookup "type" with
    | none =>
      have hget := JMap.get_of_lookup_none m "type" hl
      have hs : (m.get "type").assertString = none := by
        rw [hget]
        rfl
      constructor
      · intro _
        exact Or.inl rfl
      · intro _
        exact ⟨_, newMaterial_no_string toLower m hs⟩
    | some v =>
      have hget := JMap.get_of_lookup_some m "type" v hl
      by_cases hv : ∃ s, v = JValue.str s
      · obtain ⟨s, rfl⟩ := hv
        have hs : (m.get "type").assertString = some s := by
          rw [hget]
          rfl
        by_cases hrec : toLower s = "lambertian" ∨ toLower s = "metal"
            ∨ toLower s = "dielectric"
        · constructor
          · rintro ⟨msg, hmsg⟩
            exact absurd hmsg (newMaterial_recognized_ne_error toLower m s hs hrec msg)
          · rintro (h | ⟨v, hv, hns⟩ | ⟨s2, hs2, h1, h2, h3⟩)
            · exact absurd h (by simp)
            · have hv2 : JValue.str s = v := Option.some.inj hv
              exact absurd hv2.symm (hns s)
            · have hs3 : JValue.str s = JValue.str s2 := Option.some.inj hs2
              have hs4 : s = s2 := JValue.str.inj hs3
              subst hs4
              rcases hrec with h | h | h
              · exact absurd h h1
              · exact absurd h h2
              · exact absurd h h3
        · have h1 : toLower s ≠ "lambertian" := fun h => hrec (Or.inl h)
          have h2 : toLower s ≠ "metal" := fun h => hrec (Or.inr (Or.inl h))
          have h3 : toLower s ≠ "dielectric" := fun h => hrec (Or.inr (Or.inr h))
          constructor
          · intro _
            exact Or.inr (Or.inr ⟨s, rfl, h1, h2, h3⟩)
          · intro _
            exact ⟨_, newMaterial_unrecognized toLower m s hs h1 h2 h3⟩
      · have hns : ∀ s, v ≠ JValue.str s := fun s h => hv ⟨s, h⟩
        have hs : (m.get "type").assertString = none := by
          rw [hget]
          cases v with
          | str s => exact absurd rfl (hns s)
          | null => rfl
          | bool b => rfl
          | num x => rfl
          | arr xs => rfl
          | obj kvs => rfl
        constructor
        · intro _
          exact Or.inr (Or.inl ⟨v, rfl, hns⟩)
        · intro _
          exact ⟨_, newMaterial_no_string toLower m hs⟩
  · intro t1 t2 rest ht
    have hne1 : ("albedo" == "type") = false := by decide
    have hne2 : ("fuzz" == "type") = false := by decide
    have hne3 : ("refindex" == "type") = false := by decide
    simp only [newMaterial, JMap.get, List.lookup, beq_self_eq_true, hne1, hne2, hne3,
      JValue.assertString, ht]

theorem newMaterial_error_iff_witness :
    newMaterial toLowerASCII
        (("type", JValue.str "DiElectric") :: [("refindex", (JValue.num (3 / 2) : JValue ℚ))])
      = newMaterial toLowerASCII
        (("type", JValue.str "dielectric") :: [("refindex", JValue.num (3 / 2))]) :=
  (newMaterial_error_iff toLowerASCII
      ([] : JMap ℚ)).2 "DiElectric" "dielectric" [("refindex", JValue.num (3 / 2))]
    (by decide)

/-- C12, as stated, fails: a metal description whose `fuzz` is present but is
not a number is built, with `Fuzz = 0`, instead of being rejected. -/
theorem newMaterial_malformed_fuzz_accepted :
    newMaterial toLowerASCII [("type", JValue.str "metal"), ("fuzz", JValue.str "high")]
      = (Outcome.ok (Material.metal ⟨⟨0, 0, 0⟩, 0⟩) : Outcome (Material ℚ)) := by
  decide

/-- C12, amended: for every description whose type is recognized,
`newMaterial` never returns an error; a `fuzz` or `refindex` that is not a
number and an `albedo` that is not a map are treated like absent fields, the
material being built with the zero value for that field. -/
theorem newMaterial_malformed_ignored (toLower : String → String) (m : JMap K)
    (t : String) (ht : m.lookup "type" = some (JValue.str t))
    (hrec : toLower t = "lambertian" ∨ toLower t = "metal" ∨ toLower t = "dielectric") :
    (∀ msg, newMaterial toLower m ≠ Outcome.error msg)
      ∧ (toLower t = "metal" → (m.get "fuzz").assertFloat64 = none →
          ∀ mat, newMaterial toLower m = Outcome.ok mat →
            ∃ a : Color K, mat = Material.metal { Albedo := a, Fuzz := (0 : K) })
      ∧ (toLower t = "dielectric" → (m.get "refindex").assertFloat64 = none →
          newMaterial toLower m
            = Outcome.ok (Material.dielectric { RefIndex := (0 : K) }))
      ∧ (toLower t = "lambertian" → (m.get "albedo").assertMap = none →
          newMaterial toLower m
            = Outcome.ok (Material.lambertian { Albedo := (⟨0, 0, 0⟩ : Color K) }))
      ∧ (toLower t = "metal" → (m.get "albedo").assertMap = none →
          newMaterial toLower m
            = Outcome.ok (Material.metal
                { Albedo := ⟨0, 0, 0⟩, Fuzz := ((m.get "fuzz").assertFloat64).getD 0 })) := by
  have hs : (m.get "type").assertString = some t := by
    rw [JMap.get_of_lookup_some m "type" _ ht]
    rfl
  refine ⟨newMaterial_recognized_ne_error toLower m t hs hrec, ?_, ?_, ?_, ?_⟩
  · intro h1 hf mat hmat
    rw [newMaterial_metal toLower m t hs h1, hf] at hmat
    split at hmat
    · split at hmat
      · exact ⟨_, (Outcome.ok.inj hmat).symm⟩
      · exact absurd hmat (by simp)
    · exact ⟨_, (Outcome.ok.inj hmat).symm⟩
  · intro h1 hf
    rw [newMaterial_dielectric toLower m t hs h1, hf]
    rfl
  · intro h1 ha
    rw [newMaterial_lambertian toLower m t hs h1, ha]
  · intro h1 ha
    rw [newMaterial_metal toLower m t hs h1, ha]

theorem newMaterial_malformed_ignored_witness :
    newMaterial toLowerASCII
        [("type", JValue.str "Dielectric"), ("refindex", JValue.str "glass")]
      = (Outcome.ok (Material.dielectric { RefIndex := 0 }) : Outcome (Material ℚ)) :=
  (newMaterial_malformed_ignored (K := ℚ) toLowerASCII
    [("type", JValue.str "Dielectric"), ("refindex", JValue.str "glass")] "Dielectric"
    rfl (by decide)).2.2.1 (by decide) rfl

/-- C13: for every well-formed description with a recognized type (`albedo`
absent or a map whose `x`, `y`, `z` are numbers, `fuzz` and `refindex` absent
or numbers), `newMaterial` returns without error the matching variant whose
fields equal the supplied values, absent fields being the zero value: missing
albedo gives `(0,0,0)`, missing fuzz gives 0, missing refindex gives 0. -/
theorem newMaterial_wellformed (toLower : String → String) (m : JMap K) (t : String)
    (alb : Color K) (fz ri : K)
    (ht : m.lookup "type" = some (JValue.str t))
    (halb : (m.lookup "albedo" = none ∧ alb = ⟨0, 0, 0⟩)
      ∨ (∃ a : JMap K, m.lookup "albedo" = some (JValue.obj a)
          ∧ a.lookup "x" = some (JValue.num alb.X)
          ∧ a.lookup "y" = some (JValue.num alb.Y)
          ∧ a.lookup "z" = some (JValue.num alb.Z)))
    (hfz : (m.lookup "fuzz" = none ∧ fz = 0) ∨ m.lookup "fuzz" = some (JValue.num fz))
    (hri : (m.lookup "refindex" = none ∧ ri = 0)
      ∨ m.lookup "refindex" = some (JValue.num ri)) :
    (toLower t = "lambertian" →
        newMaterial toLower m = Outcome.ok (Material.lambertian { Albedo := alb }))
      ∧ (toLower t = "metal" →
          newMaterial toLower m
            = Outcome.ok (Material.metal { Albedo := alb, Fuzz := fz }))
      ∧ (toLower t = "dielectric" →
          newMaterial toLower m
            = Outcome.ok (Material.dielectric { RefIndex := ri })) := by
  have hs : (m.get "type").assertString = some t := by
    rw [JMap.get_of_lookup_some m "type" _ ht]
    rfl
  have hfuzz : ((m.get "fuzz").assertFloat64).getD 0 = fz := by
    rcases hfz with ⟨h, h0⟩ | h
    · rw [JMap.get_of_lookup_none m "fuzz" h, h0]
      rfl
    · rw [JMap.get_of_lookup_some m "fuzz" _ h]
      rfl
  have hrefindex : ((m.get "refindex").assertFloat64).getD 0 = ri := by
    rcases hri with ⟨h, h0⟩ | h
    · rw [JMap.get_of_lookup_none m "refindex" h, h0]
      rfl
    · rw [JMap.get_of_lookup_some m "refindex" _ h]
      rfl
  have hcolor : ∀ a : JMap K, a.lookup "x" = some (JValue.num alb.X) →
      a.lookup "y" = some (JValue.num alb.Y) → a.lookup "z" = some (JValue.num alb.Z) →
      albedoColor a = some alb := by
    intro a hx hy hz
    unfold albedoColor
    rw [JMap.get_of_lookup_some a "x" _ hx, JMap.get_of_lookup_some a "y" _ hy,
      JMap.get_of_lookup_some a "z" _ hz]
    rfl
  refine ⟨?_, ?_, ?_⟩
  · intro h1
    rw [newMaterial_lambertian toLower m t hs h1]
    rcases halb with ⟨h, h0⟩ | ⟨a, h, hx, hy, hz⟩
    · rw [JMap.get_of_lookup_none m "albedo" h, h0]
      rfl
    · rw [JMap.get_of_lookup_some m "albedo" _ h]
      simp only [JValue.assertMap, hcolor a hx hy hz]
  · intro h1
    rw [newMaterial_metal toLower m t hs h1, hfuzz]
    rcases halb with ⟨h, h0⟩ | ⟨a, h, hx, hy, hz⟩
    · rw [JMap.get_of_lookup_none m "albedo" h, h0]
      rfl
    · rw [JMap.get_of_lookup_some m "albedo" _ h]
      simp only [JValue.assertMap, hcolor a hx hy hz]
  · intro h1
    rw [newMaterial_dielectric toLower m t hs h1, hrefindex]

theorem newMaterial_wellformed_witness :
    newMaterial toLowerASCII
        [("type", JValue.str "metal"),
         ("albedo", JValue.obj [("x", JValue.num 1), ("y", JValue.num 1),
            ("z", JValue.num 1)])]
      = (Outcome.ok (Material.metal { Albedo := ⟨1, 1, 1⟩, Fuzz := 0 }) :
          Outcome (Material ℚ)) :=
  (newMaterial_wellformed (K := ℚ) toLowerASCII
    [("type", JValue.str "metal"),
     ("albedo", JValue.obj [("x", JValue.num 1), ("y", JValue.num 1),
        ("z", JValue.num 1)])]
    "metal" ⟨1, 1, 1⟩ 0 0 rfl
    (Or.inr ⟨[("x", JValue.num 1), ("y", JValue.num 1), ("z", JValue.num 1)],
      rfl, rfl, rfl, rfl⟩)
    (Or.inl ⟨rfl, rfl⟩) (Or.inl ⟨rfl, rfl⟩)).2.1 (by decide)

/-- C14, as stated, fails: a dielectric description without `refindex` is built
with `RefIndex = 0`, which is not `> 1`, and a metal description with
`fuzz = 5` is built with `Fuzz = 5`, which is not in `[0,1]`. -/
theorem newMaterial_out_of_range :
    (newMaterial toLowerASCII [("type", JValue.str "dielectric")]
        = (Outcome.ok (Material.dielectric { RefIndex := 0 }) : Outcome (Material ℚ))
      ∧ ¬ ((0 : ℚ) > 1))
    ∧ (newMaterial toLowerASCII [("type", JValue.str "metal"), ("fuzz", JValue.num 5)]
        = (Outcome.ok (Material.metal { Albedo := ⟨0, 0, 0⟩, Fuzz := 5 }) :
            Outcome (Material ℚ))
      ∧ ¬ ((5 : ℚ) ≤ 1)) := by
  decide

/-- C14, amended: `newMaterial` copies the range-constrained fields without
checking them.  Every `Metal` it returns has `Fuzz` equal to the description's
`fuzz` when that is a number and 0 otherwise, and every `DiElectric` it returns
has `RefIndex` equal to the description's `refindex` when that is a number and
0 otherwise; so `Fuzz` is in `[0,1]`, and `RefIndex > 1`, exactly when that
value is. -/
theorem newMaterial_ranges_copied (toLower : String → String) (m : JMap K) :
    (∀ mt : Metal K, newMaterial toLower m = Outcome.ok (Material.metal mt) →
        mt.Fuzz = ((m.get "fuzz").assertFloat64).getD 0
          ∧ ((0 ≤ mt.Fuzz ∧ mt.Fuzz ≤ 1)
              ↔ (0 ≤ ((m.get "fuzz").assertFloat64).getD 0
                  ∧ ((m.get "fuzz").assertFloat64).getD 0 ≤ 1)))
      ∧ (∀ d : DiElectric K, newMaterial toLower m = Outcome.ok (Material.dielectric d) →
          d.RefIndex = ((m.get "refindex").assertFloat64).getD 0
            ∧ (d.RefIndex > 1 ↔ ((m.get "refindex").assertFloat64).getD 0 > 1)) := by
  have hmetal : ∀ mt : Metal K, newMaterial toLower m = Outcome.ok (Material.metal mt) →
      mt.Fuzz = ((m.get "fuzz").assertFloat64).getD 0 := by
    intro mt hmt
    cases hs : (m.get "type").assertString with
    | none =>
      rw [newMaterial_no_string toLower m hs] at hmt
      exact absurd hmt (by simp)
    | some t =>
      by_cases h1 : toLower t = "lambertian"
      · rw [newMaterial_lambertian toLower m t hs h1] at hmt
        split at hmt
        · split at hmt <;> exact absurd hmt (by simp)
        · exact absurd hmt (by simp)
      · by_cases h2 : toLower t = "metal"
        · rw [newMaterial_metal toLower m t hs h2] at hmt
          split at hmt
          · split at hmt
            · have h := Material.metal.inj (Outcome.ok.inj hmt)
              rw [← h]
            · exact absurd hmt (by simp)
          · have h := Material.metal.inj (Outcome.ok.inj hmt)
            rw [← h]
        · by_cases h3 : toLower t = "dielectric"
          · rw [newMaterial_dielectric toLower m t hs h3] at hmt
            exact absurd hmt (by simp)
          · rw [newMaterial_unrecognized toLower m t hs h1 h2 h3] at hmt
            exact absurd hmt (by simp)
  have hdiel : ∀ d : DiElectric K,
      newMaterial toLower m = Outcome.ok (Material.dielectric d) →
      d.RefIndex = ((m.get "refindex").assertFloat64).getD 0 := by
    intro d hd
    cases hs : (m.get "type").assertString with
    | none =>
      rw [newMaterial_no_string toLower m hs] at hd
      exact absurd hd (by simp)
    | some t =>
      by_cases h1 : toLower t = "lambertian"
      · rw [newMaterial_lambertian toLower m t hs h1] at hd
        split at hd
        · split at hd <;> exact absurd hd (by simp)
        · exact absurd hd (by simp)
      · by_cases h2 : toLower t = "metal"
        · rw [newMaterial_metal toLower m t hs h2] at hd
          split at hd
          · split at hd <;> exact absurd hd (by simp)
          · exact absurd hd (by simp)
        · by_cases h3 : toLower t = "dielectric"
          · rw [newMaterial_dielectric toLower m t hs h3] at hd
            have h := Material.dielectric.inj (Outcome.ok.inj hd)
            rw [← h]
          · rw [newMaterial_unrecognized toLower m t hs h1 h2 h3] at hd
            exact absurd hd (by simp)
  refine ⟨?_, ?_⟩
  · intro mt hmt
    have h := hmetal mt hmt
    refine ⟨h, ?_⟩
    rw [h]
  · intro d hd
    have h := hdiel d hd
    refine ⟨h, ?_⟩
    rw [h]

theorem newMaterial_ranges_copied_witness :
    (5 : ℚ) = ((JMap.get [("type", JValue.str "metal"), ("fuzz", JValue.num 5)]
        "fuzz").assertFloat64).getD 0 :=
  ((newMaterial_ranges_copied toLowerASCII
    [("type", JValue.str "metal"), ("fuzz", JValue.num (5 : ℚ))]).1
    { Albedo := ⟨0, 0, 0⟩, Fuzz := 5 } (by decide)).1

end Construction

/-! ## The exact-arithmetic claims evaluated in `float64`

Each statement below runs the embedded functions on `F64` at one input and is
proved by evaluation. -/

section Float64

set_option maxRecDepth 1000000

/-- C3 fails in `float64`: for `uv = Unit(1,1,-1)` and `n = (0,0,1)`, both of
`Length()` exactly 1 and with `uv·n < 0`, the third component of
`Refract(uv, n, 1.0)` is `-5200308914369307 * 2^-53` and that of `uv` is
`-5200308914369309 * 2^-53`. -/
theorem refract_ratio_one_float64 :
    F64.eq ((Vec3.Unit F64.sqrt ⟨1, 1, -1⟩).Length F64.sqrt) 1 = true
      ∧ F64.eq (Vec3.Length F64.sqrt ⟨0, 0, 1⟩) 1 = true
      ∧ F64.lt ((Vec3.Unit F64.sqrt ⟨1, 1, -1⟩).Dot ⟨0, 0, 1⟩) 0 = true
      ∧ (Refract F64.sqrt (Vec3.Unit F64.sqrt ⟨1, 1, -1⟩) ⟨0, 0, 1⟩ 1).Z
          = F64.fin true 5200308914369307 (-53)
      ∧ (Vec3.Unit F64.sqrt ⟨1, 1, -1⟩).Z = F64.fin true 5200308914369309 (-53)
      ∧ F64.eq (Refract F64.sqrt (Vec3.Unit F64.sqrt ⟨1, 1, -1⟩) ⟨0, 0, 1⟩ 1).Z
          (Vec3.Unit F64.sqrt ⟨1, 1, -1⟩).Z = false := by
  decide

/-- C4 fails in `float64`: for `v = Unit(1,0,-4)` and `n = Unit(0,2,3)`, both
of `Length()` exactly 1, `Reflect(v,n)·n` is `3635338733260877 * 2^-52` while
`-(v·n)` is `908834683315219 * 2^-50`, and `Reflect(v,n).Length()` is not
`v.Length()`. -/
theorem reflect_dot_float64 :
    F64.eq ((Vec3.Unit F64.sqrt ⟨0, 2, 3⟩).Length F64.sqrt) 1 = true
      ∧ F64.eq ((Vec3.Unit F64.sqrt ⟨1, 0, -4⟩).Length F64.sqrt) 1 = true
      ∧ (Reflect (Vec3.Unit F64.sqrt ⟨1, 0, -4⟩) (Vec3.Unit F64.sqrt ⟨0, 2, 3⟩)).Dot
            (Vec3.Unit F64.sqrt ⟨0, 2, 3⟩)
          = F64.fin false 3635338733260877 (-52)
      ∧ -((Vec3.Unit F64.sqrt ⟨1, 0, -4⟩).Dot (Vec3.Unit F64.sqrt ⟨0, 2, 3⟩))
          = F64.fin false 908834683315219 (-50)
      ∧ F64.eq
          ((Reflect (Vec3.Unit F64.sqrt ⟨1, 0, -4⟩) (Vec3.Unit F64.sqrt ⟨0, 2, 3⟩)).Dot
            (Vec3.Unit F64.sqrt ⟨0, 2, 3⟩))
          (-((Vec3.Unit F64.sqrt ⟨1, 0, -4⟩).Dot (Vec3.Unit F64.sqrt ⟨0, 2, 3⟩))) = false
      ∧ F64.eq
          ((Reflect (Vec3.Unit F64.sqrt ⟨1, 0, -4⟩)
            (Vec3.Unit F64.sqrt ⟨0, 2, 3⟩)).Length F64.sqrt)
          ((Vec3.Unit F64.sqrt ⟨1, 0, -4⟩).Length F64.sqrt) = false := by
  decide

/-- C15 fails in `float64`.  For the camera at (13,2,3) looking at (0,0,0) with
aperture 0 and `focusDist = 1`, the first component of the direction of
`GetRay(0.5, 0.5)` is not that of `-focusDist * W`.  For the camera at (0,5,0)
looking at (0,0,0) with `viewUp = (0,1,0)`, parallel to the view axis, the
origin of the ray is NaN and not `lookFrom`. -/
theorem getRay_center_float64 :
    F64.eq
        ((cameraFloat64 0 1).GetRay (F64.ofRatio 1 2) (F64.ofRatio 1 2) ⟨0, 0, 0⟩).Direction.X
        ((cameraFloat64 0 1).W.ScalarMul (-1)).X = false
      ∧ ((InitCamera F64.sqrt (fun x => x) (fun x => x) ⟨0, 5, 0⟩ ⟨0, 0, 0⟩ ⟨0, 1, 0⟩ 0 1 0
            1).GetRay (F64.ofRatio 1 2) (F64.ofRatio 1 2) ⟨0, 0, 0⟩).Origin
          = ⟨F64.nan, F64.nan, F64.nan⟩ := by
  decide

/-- C16 fails in `float64`: for the camera at (13,2,3) looking at (0,0,0) with
`viewUp = (0,1,0)` (not parallel: `viewUp × (lookFrom - lookAt) = (3,0,-13)`),
`V.Length()` is `9007199254740991 * 2^-53`, not 1, and `V·W` is `-19 * 2^-60`,
not 0. -/
theorem initCamera_float64 :
    (Vec3.Cross ⟨0, 1, 0⟩ (Vec3.Sub ⟨13, 2, 3⟩ ⟨0, 0, 0⟩) : Vec3 F64) = ⟨3, 0, -13⟩
      ∧ (cameraFloat64 0 1).V.Length F64.sqrt = F64.fin false 9007199254740991 (-53)
      ∧ F64.eq ((cameraFloat64 0 1).V.Length F64.sqrt) 1 = false
      ∧ (cameraFloat64 0 1).V.Dot (cameraFloat64 0 1).W = F64.fin true 19 (-60)
      ∧ F64.eq ((cameraFloat64 0 1).V.Dot (cameraFloat64 0 1).W) 0 = false := by
  decide

/-- C17 fails in `float64`: for the camera at (13,2,3) looking at (0,0,0) with
aperture 0.1 and `focusDist = 10`, at `s = 0.25`, `t = 0.75`, the second
component of `origin + direction` is that of
`LowerLeft + Horizontal*s + Vertical*t` for the lens sample (0,0,0) and is not
for the lens sample (0.5,0.5,0): the sum depends on the sample. -/
theorem getRay_target_float64 :
    F64.eq
        ((((cameraFloat64 (F64.ofRatio 1 10) 10).GetRay (F64.ofRatio 1 4) (F64.ofRatio 3 4)
              ⟨0, 0, 0⟩).Origin.Add
            ((cameraFloat64 (F64.ofRatio 1 10) 10).GetRay (F64.ofRatio 1 4) (F64.ofRatio 3 4)
              ⟨0, 0, 0⟩).Direction).Y)
        ((((cameraFloat64 (F64.ofRatio 1 10) 10).LowerLeft.Add
              ((cameraFloat64 (F64.ofRatio 1 10) 10).Horizontal.ScalarMul
                (F64.ofRatio 1 4))).Add
            ((cameraFloat64 (F64.ofRatio 1 10) 10).Vertical.ScalarMul
              (F64.ofRatio 3 4))).Y) = true
      ∧ F64.eq
        ((((cameraFloat64 (F64.ofRatio 1 10) 10).GetRay (F64.ofRatio 1 4) (F64.ofRatio 3 4)
              ⟨F64.ofRatio 1 2, F64.ofRatio 1 2, 0⟩).Origin.Add
            ((cameraFloat64 (F64.ofRatio 1 10) 10).GetRay (F64.ofRatio 1 4) (F64.ofRatio 3 4)
              ⟨F64.ofRatio 1 2, F64.ofRatio 1 2, 0⟩).Direction).Y)
        ((((cameraFloat64 (F64.ofRatio 1 10) 10).LowerLeft.Add
              ((cameraFloat64 (F64.ofRatio 1 10) 10).Horizontal.ScalarMul
                (F64.ofRatio 1 4))).Add
            ((cameraFloat64 (F64.ofRatio 1 10) 10).Vertical.ScalarMul
              (F64.ofRatio 3 4))).Y) = false := by
  decide

/-- C19 fails in `float64`: for `a = (0.1,0.1,0.1)`, `b = (0.2,0.2,0.2)`,
`c = (0.3,0.3,0.3)`, the first component of `a.Add(b).Add(c)` is
`0.6000000000000001` and that of `a.Add(b.Add(c))` is `0.6`. -/
theorem add_not_associative_float64 :
    (((Vec3.mk (F64.ofRatio 1 10) (F64.ofRatio 1 10) (F64.ofRatio 1 10)).Add
          (Vec3.mk (F64.ofRatio 2 10) (F64.ofRatio 2 10) (F64.ofRatio 2 10))).Add
        (Vec3.mk (F64.ofRatio 3 10) (F64.ofRatio 3 10) (F64.ofRatio 3 10))).X
        = F64.fin false 1351079888211149 (-51)
      ∧ ((Vec3.mk (F64.ofRatio 1 10) (F64.ofRatio 1 10) (F64.ofRatio 1 10)).Add
          ((Vec3.mk (F64.ofRatio 2 10) (F64.ofRatio 2 10) (F64.ofRatio 2 10)).Add
            (Vec3.mk (F64.ofRatio 3 10) (F64.ofRatio 3 10) (F64.ofRatio 3 10)))).X
        = F64.ofRatio 6 10
      ∧ F64.eq (F64.fin false 1351079888211149 (-51)) (F64.ofRatio 6 10) = false := by
  decide

/-- C20 fails in `float64`: for `uv = Unit(3,3,-2)` and `n = (0,0,1)`, both of
`Length()` exactly 1, and `k = 2.0/3`, inside the valid domain
(`k*k*(1 - (uv·n)*(uv·n)) <= 1`), `Refract(uv, n, k).Length()` is
`9007199254740991 * 2^-53 = 0.9999999999999999`. -/
theorem refract_length_float64 :
    F64.eq ((Vec3.Unit F64.sqrt ⟨3, 3, -2⟩).Length F64.sqrt) 1 = true
      ∧ F64.eq (Vec3.Length F64.sqrt ⟨0, 0, 1⟩) 1 = true
      ∧ F64.le
          (F64.ofRatio 2 3 * F64.ofRatio 2 3
            * (1 - (Vec3.Unit F64.sqrt ⟨3, 3, -2⟩).Dot ⟨0, 0, 1⟩
                  * (Vec3.Unit F64.sqrt ⟨3, 3, -2⟩).Dot ⟨0, 0, 1⟩)) 1 = true
      ∧ (Refract F64.sqrt (Vec3.Unit F64.sqrt ⟨3, 3, -2⟩) ⟨0, 0, 1⟩
            (F64.ofRatio 2 3)).Length F64.sqrt
          = F64.fin false 9007199254740991 (-53)
      ∧ F64.eq
          ((Refract F64.sqrt (Vec3.Unit F64.sqrt ⟨3, 3, -2⟩) ⟨0, 0, 1⟩
            (F64.ofRatio 2 3)).Length F64.sqrt) 1 = false := by
  decide

end Float64

end Claims

end RayTracing
